import Mathlib

/-!
SMHI weather report: parameter lookup, condition classifier, derived metrics
and the hourly table. A shallow embedding of `smhi-weather.go`.

Modelling conventions
* A Go `float64` is an exact rational number (`ℚ`); infinities and NaN are
  outside the model. Arithmetic is exact, except in `getWindDirectionF64`,
  where the rounding of each operation to binary64 is explicit because it can
  change the compass label.
* `*float64` results of the lookup are `Option ℚ` (`nil` is `none`).
* A run-time panic (slice index out of range) is `none` in the functions that
  can raise it.
* `math.Pow` is a parameter `pow : ℚ → ℚ → ℚ` of the functions that call it.
* The formatting of `ValidTime` in local time is a parameter (`clock` for the
  layout `15:04`, `dateClock` for `Mon 02 Jan 15:04`).
* `main` starts from the result of `getSMHIForecast`; its outcome is the list
  of printed texts, one per print call, and how the run ended.
-/

namespace SMHI

/-! ## Data model -/

/-- The `Parameter` struct of the API response: a name and its values. -/
structure Parameter where
  Name : String
  Values : List ℚ
  deriving DecidableEq

/-- The `TimeSeriesEntry` struct: one forecast instant. -/
structure TimeSeriesEntry where
  ValidTime : String
  Parameters : List Parameter
  deriving DecidableEq

/-! ## Parameter lookup -/

/-- The function `getParameterValue`: scan the slice in order and return the
first value of the first entry with the given name and a non-empty value
slice; `nil` (here `none`) when the scan ends without such an entry. -/
def getParameterValue : List Parameter → String → Option ℚ
  | [], _ => none
  | p :: params, name =>
    if h : p.Name = name ∧ p.Values.length > 0 then
      some (p.Values.get ⟨0, h.2⟩)
    else
      getParameterValue params name

/-! ## Condition classifier -/

/-- The function `getWeatherConditionFromSymbol`: the `switch` over the symbol
code, with its `default` arm. -/
def getWeatherConditionFromSymbol (symbolCode : Int) : String :=
  match symbolCode with
  | 1 => "clear_sky"
  | 2 => "nearly_clear_sky"
  | 3 => "variable_cloudiness"
  | 4 => "halfclear_sky"
  | 5 => "cloudy_sky"
  | 6 => "overcast"
  | 7 => "fog"
  | 8 | 9 | 10 => "rain_showers"
  | 11 => "thunderstorm"
  | 12 | 13 | 14 => "sleet_showers"
  | 15 | 16 | 17 => "snow_showers"
  | 18 | 19 | 20 => "rain"
  | 21 => "thunder"
  | 22 | 23 | 24 => "sleet"
  | 25 | 26 | 27 => "snowfall"
  | _ => "clear_sky"

/-! ## Compass direction -/

/-- Go's conversion `int(x)` of a float: the fraction is discarded, that is,
the value is truncated towards zero. (Go leaves the result unspecified when the
truncated value does not fit an `int`; the model is the exact truncation.) -/
def goInt (x : ℚ) : Int :=
  if 0 ≤ x then ⌊x⌋ else ⌈x⌉

/-- Go's slice indexing `xs[i]` with an `int` index: a run-time panic (`none`)
when the index is negative or not below the length. -/
def goIndex {α : Type} (xs : List α) (i : Int) : Option α :=
  if 0 ≤ i then xs.get? i.toNat else none

/-- The slice `directions` of `getWindDirection`. -/
def directions : List String :=
  ["N", "NNE", "NE", "ENE", "E", "ESE", "SE", "SSE",
   "S", "SSW", "SW", "WSW", "W", "WNW", "NW", "NNW"]

/-- The value of the local `index` of `getWindDirection`, with the sum and the
quotient evaluated exactly; `windIndexF64` below rounds both to binary64, and
the two agree except within rounding distance of a sector boundary
(`getWindDirectionF64_eq_exact`). -/
def windIndex (degrees : ℚ) : Int :=
  goInt ((degrees + 11.25) / 22.5)

/-- The function `getWindDirection`. Go's `%` on `int` is the truncated
remainder `Int.tmod`, whose sign is that of the dividend. -/
def getWindDirection (degrees : ℚ) : Option String :=
  let index := windIndex degrees
  goIndex directions (Int.tmod index 16)

/-! ## Apparent temperature -/

/-- The function `calculateApparentTemp`; `pow` stands for `math.Pow`. -/
def calculateApparentTemp (pow : ℚ → ℚ → ℚ) (temp windSpeed humidity : ℚ) : ℚ :=
  if temp ≤ 10.0 ∧ windSpeed ≥ 1.3 then
    let windKmh := windSpeed * 3.6
    13.12 + 0.6215 * temp - 11.37 * pow windKmh 0.16 + 0.3965 * temp * pow windKmh 0.16
  else if temp ≥ 27.0 ∧ humidity ≥ 40.0 then
    let c1 : ℚ := -8.78469475556
    let c2 : ℚ := 1.61139411
    let c3 : ℚ := 2.33854883889
    let c4 : ℚ := -0.14611605
    let c5 : ℚ := -0.012308094
    let c6 : ℚ := -0.0164248277778
    let c7 : ℚ := 0.002211732
    let c8 : ℚ := 0.00072546
    let c9 : ℚ := -0.000003582
    let t2 := temp * temp
    let h2 := humidity * humidity
    let hi := c1 + c2 * temp + c3 * humidity + c4 * temp * humidity +
      c5 * t2 + c6 * h2 + c7 * t2 * humidity + c8 * temp * h2 + c9 * t2 * h2
    hi
  else
    temp

/-! ## Icon catalog -/

/-- The map `icons` of `getWeatherIcon`: the lookup `icons[condition]` with
its `ok` flag (`none` when the key is not in the map). -/
def icons (condition : String) : Option (List String) :=
  match condition with
  | "clear_sky" => some [
      "    \\   /    ",
      "     .-.     ",
      "  ― (   ) ―  ",
      "     `-'     ",
      "    /   \\    "]
  | "nearly_clear_sky" => some [
      "   \\  /      ",
      " _ /\"\".-.    ",
      "   \\_(   ).  ",
      "   /(___(__).",
      "             "]
  | "variable_cloudiness" => some [
      "   \\  /      ",
      " _ /\"\".-.    ",
      "   \\_(   ).  ",
      "   /(___(__).",
      "             "]
  | "halfclear_sky" => some [
      "   \\  /      ",
      " _ /\"\".-.    ",
      "   \\_(   ).  ",
      "   /(___(__).",
      "             "]
  | "cloudy_sky" => some [
      "             ",
      "     .--.    ",
      "  .-(    ).  ",
      " (___.__)__) ",
      "             "]
  | "overcast" => some [
      "             ",
      "     .--.    ",
      "  .-(    ).  ",
      " (___.__)__) ",
      "             "]
  | "fog" => some [
      "             ",
      " _ - _ - _ - ",
      "  _ - _ - _  ",
      " _ - _ - _ - ",
      "             "]
  | "rain_showers" => some [
      "     .-.     ",
      "    (   ).   ",
      "   (___(__)  ",
      "    ' ' ' '  ",
      "   ' ' ' '   "]
  | "thunderstorm" => some [
      "     .-.     ",
      "    (   ).   ",
      "   (___(__)  ",
      "    ⚡ ⚡ ⚡   ",
      "  ‚'‚'‚'‚'   "]
  | "sleet_showers" => some [
      "     .-.     ",
      "    (   ).   ",
      "   (___(__)  ",
      "    * ' * '  ",
      "   * ' * '   "]
  | "snow_showers" => some [
      "     .-.     ",
      "    (   ).   ",
      "   (___(__)  ",
      "    *  *  *  ",
      "   *  *  *   "]
  | "rain" => some [
      "     .-.     ",
      "    (   ).   ",
      "   (___(__)  ",
      "  ‚'‚'‚'‚'   ",
      "  ‚'‚'‚'‚'   "]
  | "thunder" => some [
      "     .-.     ",
      "    (   ).   ",
      "   (___(__)  ",
      "    ⚡ ⚡ ⚡   ",
      "  ‚'‚'‚'‚'   "]
  | "sleet" => some [
      "     .-.     ",
      "    (   ).   ",
      "   (___(__)  ",
      "  * ' * ' *  ",
      "  * ' * ' *  "]
  | "snowfall" => some [
      "     .-.     ",
      "    (   ).   ",
      "   (___(__)  ",
      "   *  *  *   ",
      "  *  *  *  * "]
  | _ => none

/-- The function `getWeatherIcon`: the block under the key, or the block under
"clear_sky" when the key is not in the map. -/
def getWeatherIcon (condition : String) : List String :=
  match icons condition with
  | some icon => icon
  | none => (icons "clear_sky").getD []

/-! ## Formatting (the `fmt` verbs used by the report) -/

/-- Rounding of a non-negative rational to the nearest natural number, a tie
going to the even neighbour (the rounding of Go's decimal formatting). -/
def roundHalfEven (q : ℚ) : Nat :=
  let f := ⌊q⌋.toNat
  let r := q - f
  if r < 1 / 2 then f
  else if 1 / 2 < r then f + 1
  else if f % 2 = 0 then f else f + 1

/-- The verb `%.Nf` of `fmt.Sprintf` for N = `prec`: an optional minus sign,
the integer digits, and, when `prec` is positive, a point and exactly `prec`
fraction digits. -/
def sprintfFixed (prec : Nat) (x : ℚ) : String :=
  let n := roundHalfEven (|x| * 10 ^ prec)
  let ip := n / 10 ^ prec
  let fp := n % 10 ^ prec
  let digits := toString fp
  (if x < 0 then "-" else "") ++ toString ip ++
    (if prec = 0 then ""
     else "." ++ String.mk (List.replicate (prec - digits.length) '0') ++ digits)

/-- The verb `%*s` of `fmt.Printf` with width `w`: spaces are added on the
left until the text has `w` code points; a longer text is left as it is. -/
def padLeft (w : Nat) (s : String) : String :=
  String.mk (List.replicate (w - s.length) ' ') ++ s

/-! ## Compass direction in binary64 arithmetic -/

/-- Rounding of a rational to the nearest binary64 value, a tie going to the
even significand (IEEE 754 round to nearest even), for a value in the normal
range: with `2 ^ e ≤ |x| < 2 ^ (e + 1)` the binary64 values around `x` are the
multiples of `2 ^ (e - 52)`. Overflow and subnormal values are outside the
model. -/
def roundF64 (x : ℚ) : ℚ :=
  if x = 0 then 0
  else
    let e := Int.log 2 |x|
    let ulp : ℚ := 2 ^ (e - 52)
    (if x < 0 then -1 else 1) * (roundHalfEven (|x| / ulp) : ℚ) * ulp

/-- The local `index` of `getWindDirection` with its two `float64` operations
rounded: the sum `degrees + 11.25` and then the quotient by 22.5 (both
constants are binary64 values). -/
def windIndexF64 (degrees : ℚ) : Int :=
  goInt (roundF64 (roundF64 (degrees + 11.25) / 22.5))

/-- The function `getWindDirection` in binary64 arithmetic. -/
def getWindDirectionF64 (degrees : ℚ) : Option String :=
  let index := windIndexF64 degrees
  goIndex directions (Int.tmod index 16)

/-! ## Hourly table -/

/-- The map `condText` of the hourly loop; a key that is not in the map reads
as the empty string. -/
def condText (cond : String) : String :=
  match cond with
  | "clear_sky" => "☀️  Clear sky     "
  | "nearly_clear_sky" => "🌤️  Nearly clear  "
  | "variable_cloudiness" => "⛅ Variable clouds"
  | "halfclear_sky" => "⛅ Half clear    "
  | "cloudy_sky" => "☁️  Cloudy        "
  | "overcast" => "☁️  Overcast      "
  | "fog" => "🌫️  Fog           "
  | "rain_showers" => "🌦️  Rain showers  "
  | "thunderstorm" => "⛈️  Thunderstorm  "
  | "sleet_showers" => "🌨️  Sleet showers "
  | "snow_showers" => "🌨️  Snow showers  "
  | "rain" => "🌧️  Rain          "
  | "thunder" => "⛈️  Thunder       "
  | "sleet" => "🌨️  Sleet         "
  | "snowfall" => "❄️  Snowfall      "
  | _ => ""

def timeWidth : Nat := 5
def tempWidth : Nat := 5
def feelsLikeWidth : Nat := 10
def windWidth : Nat := 10
def rainWidth : Nat := 6
def humidityWidth : Nat := 8
def pressureWidth : Nat := 8
def visibilityWidth : Nat := 10
def conditionWidth : Nat := 18

/-- The body of the hourly loop for one entry: the printed row, or `none` when
the body panics (in `getWindDirection`). `clock` stands for the parse of
`ValidTime`, its conversion to local time and the layout `15:04`. -/
def hourlyRow (pow : ℚ → ℚ → ℚ) (clock : String → String)
    (entry : TimeSeriesEntry) : Option String :=
  let temp := getParameterValue entry.Parameters "t"
  let wind := getParameterValue entry.Parameters "ws"
  let windDir := getParameterValue entry.Parameters "wd"
  let rain := getParameterValue entry.Parameters "pmean"
  let humidity := getParameterValue entry.Parameters "r"
  let pressure := getParameterValue entry.Parameters "msl"
  let vis := getParameterValue entry.Parameters "vis"
  let weatherSymbol := getParameterValue entry.Parameters "Wsymb2"
  let cond :=
    match weatherSymbol with
    | some w => getWeatherConditionFromSymbol (goInt w)
    | none => "clear_sky"
  let tempStr :=
    match temp with
    | some t => sprintfFixed 1 t ++ "°"
    | none => "N/A"
  let feelsLikeStr :=
    match temp, wind, humidity with
    | some t, some w, some h => sprintfFixed 1 (calculateApparentTemp pow t w h) ++ "°"
    | _, _, _ => "N/A"
  let windStr : Option String :=
    match wind, windDir with
    | some w, some d =>
      match getWindDirection d with
      | some dir => some (sprintfFixed 1 w ++ "m/s " ++ dir)
      | none => none
    | some w, none => some (sprintfFixed 1 w ++ "m/s")
    | none, _ => some "N/A"
  let rainStr :=
    match rain with
    | some x => sprintfFixed 1 x ++ "mm"
    | none => "N/A"
  let humidityStr :=
    match humidity with
    | some x => sprintfFixed 0 x ++ "%"
    | none => "N/A"
  let pressureStr :=
    match pressure with
    | some x => sprintfFixed 0 x ++ "hPa"
    | none => "N/A"
  let visStr :=
    match vis with
    | some x => sprintfFixed 1 x ++ "km"
    | none => "N/A"
  match windStr with
  | none => none
  | some windStr =>
    some ("│ " ++ padLeft timeWidth (clock entry.ValidTime) ++
      " │ " ++ padLeft tempWidth tempStr ++
      " │ " ++ padLeft feelsLikeWidth feelsLikeStr ++
      " │ " ++ padLeft windWidth windStr ++
      " │ " ++ padLeft rainWidth rainStr ++
      " │ " ++ padLeft humidityWidth humidityStr ++
      " │ " ++ padLeft pressureWidth pressureStr ++
      " │ " ++ padLeft visibilityWidth visStr ++
      " │ " ++ condText cond ++ " │\n")

/-- The hourly loop `for i := 0; i < 12 && i < len(data.TimeSeries); i++`
from the index `i` on: the rows printed, and whether the loop ran to its end
(`false`: an iteration panicked and the program stopped there). -/
def hourlyLoop (pow : ℚ → ℚ → ℚ) (clock : String → String)
    (timeSeries : List TimeSeriesEntry) (i : Nat) : List String × Bool :=
  if h : i < 12 ∧ i < timeSeries.length then
    match hourlyRow pow clock (timeSeries.get ⟨i, h.2⟩) with
    | none => ([], false)
    | some row =>
      let rest := hourlyLoop pow clock timeSeries (i + 1)
      (row :: rest.1, rest.2)
  else
    ([], true)
termination_by 12 - i

/-- The data rows of the hourly table of `main` for a forecast series. -/
def hourlyRows (pow : ℚ → ℚ → ℚ) (clock : String → String)
    (timeSeries : List TimeSeriesEntry) : List String × Bool :=
  hourlyLoop pow clock timeSeries 0

/-! ## Program outcome -/

/-- How a run of the program, or of a part of it, ends. -/
inductive Status where
  | done
  | exit (code : Nat)
  | panic
  deriving DecidableEq

/-- What a run wrote to standard output, one element per print call in call
order, and how it ended (`done`: the part returned; `exit`: `os.Exit`;
`panic`: a run-time panic stopped the program). -/
structure Run where
  out : List String
  status : Status
  deriving DecidableEq

/-- One print call. -/
def say (s : String) : Run :=
  ⟨[s], Status.done⟩

/-- Sequencing of two parts: the second runs only when the first returned. -/
def Run.seq (a b : Run) : Run :=
  match a.status with
  | Status.done => ⟨a.out ++ b.out, b.status⟩
  | _ => a

/-- The function `strings.Repeat`: a panic (`none`) on a negative count. -/
def stringsRepeat (s : String) (count : Int) : Option String :=
  if count < 0 then none else some (String.join (List.replicate count.toNat s))

/-! ## Current-conditions panel -/

/-- The two print calls of a present metric: the label with the value text,
then `strings.Repeat(" ", 14-len(str))` and the right border; `len` is the
length in bytes. -/
def panelValue (label str : String) : Run :=
  Run.seq (say (label ++ str))
    (match stringsRepeat " " (14 - (str.utf8ByteSize : Int)) with
     | some pad => say (pad ++ "│\n")
     | none => ⟨[], Status.panic⟩)

/-- The value text `tempStr` of the panel. -/
def panelTempStr (t : ℚ) : String :=
  sprintfFixed 1 t ++ "°C"

/-- The value text `windStr` of the panel; `none` when `getWindDirection`
panics. -/
def panelWindStr (ws wd : ℚ) : Option String :=
  match getWindDirection wd with
  | some dir => some (sprintfFixed 1 ws ++ " m/s " ++ dir)
  | none => none

/-- The value text `humStr` of the panel. -/
def panelHumStr (h : ℚ) : String :=
  sprintfFixed 0 h ++ "%"

/-- The value text `presStr` of the panel. -/
def panelPresStr (p : ℚ) : String :=
  sprintfFixed 0 p ++ " hPa"

/-- The value text `visStr` of the panel. -/
def panelVisStr (v : ℚ) : String :=
  sprintfFixed 1 v ++ " km"

/-- The Temperature line of the panel (the part right of the icon). -/
def panelTempLine (temp : Option ℚ) : Run :=
  match temp with
  | some t => panelValue "│ Temperature:  " (panelTempStr t)
  | none => say "│ Temperature:  N/A           │\n"

/-- The Wind line of the panel. -/
def panelWindLine (windSpeed windDir : Option ℚ) : Run :=
  match windSpeed, windDir with
  | some ws, some wd =>
    match panelWindStr ws wd with
    | some windStr => panelValue "│ Wind:         " windStr
    | none => ⟨[], Status.panic⟩
  | _, _ => say "│ Wind:         N/A           │\n"

/-- The Humidity line of the panel. -/
def panelHumLine (humidity : Option ℚ) : Run :=
  match humidity with
  | some h => panelValue "│ Humidity:     " (panelHumStr h)
  | none => say "│ Humidity:     N/A           │\n"

/-- The Pressure line of the panel. -/
def panelPresLine (pressure : Option ℚ) : Run :=
  match pressure with
  | some p => panelValue "│ Pressure:     " (panelPresStr p)
  | none => say "│ Pressure:     N/A           │\n"

/-- The Visibility line of the panel. -/
def panelVisLine (visibility : Option ℚ) : Run :=
  match visibility with
  | some v => panelValue "│ Visibility:   " (panelVisStr v)
  | none => say "│ Visibility:   N/A           │\n"

/-- The body of the loop `for i, line := range icon` for one icon line. -/
def panelLine (temp windSpeed windDir humidity pressure visibility : Option ℚ)
    (i : Nat) (line : String) : Run :=
  if i = 0 then Run.seq (say ("│" ++ line)) (panelTempLine temp)
  else if i = 1 then Run.seq (say ("│" ++ line)) (panelWindLine windSpeed windDir)
  else if i = 2 then Run.seq (say ("│" ++ line)) (panelHumLine humidity)
  else if i = 3 then Run.seq (say ("│" ++ line)) (panelPresLine pressure)
  else if i = 4 then Run.seq (say ("│" ++ line)) (panelVisLine visibility)
  else ⟨[], Status.done⟩

/-- The loop `for i, line := range icon`, from the index `i` on. -/
def panelLines (temp windSpeed windDir humidity pressure visibility : Option ℚ) :
    Nat → List String → Run
  | _, [] => ⟨[], Status.done⟩
  | i, line :: rest =>
    Run.seq (panelLine temp windSpeed windDir humidity pressure visibility i line)
      (panelLines temp windSpeed windDir humidity pressure visibility (i + 1) rest)

/-- The top border of the panel. -/
def panelTop : String :=
  "┌─────────────────────────────┬─────────────────────────────┐\n"

/-- The bottom border of the panel. -/
def panelBottom : String :=
  "└─────────────────────────────┴─────────────────────────────┘\n"

/-- The current-conditions panel of `main` for the first entry. `dateClock`
stands for the parse of `ValidTime`, its conversion to local time and the
layout `Mon 02 Jan 15:04`. -/
def panel (dateClock : String → String) (current : TimeSeriesEntry) : Run :=
  let temp := getParameterValue current.Parameters "t"
  let windSpeed := getParameterValue current.Parameters "ws"
  let windDir := getParameterValue current.Parameters "wd"
  let humidity := getParameterValue current.Parameters "r"
  let pressure := getParameterValue current.Parameters "msl"
  let visibility := getParameterValue current.Parameters "vis"
  let weatherSymbol := getParameterValue current.Parameters "Wsymb2"
  let condition :=
    match weatherSymbol with
    | some w => getWeatherConditionFromSymbol (goInt w)
    | none => "clear_sky"
  let icon := getWeatherIcon condition
  Run.seq (say panelTop)
    (Run.seq (say ("│ " ++ dateClock current.ValidTime ++ " │"))
      (Run.seq
        (match stringsRepeat " " (28 - ((dateClock current.ValidTime).utf8ByteSize : Int)) with
         | some pad => say (pad ++ "│\n")
         | none => ⟨[], Status.panic⟩)
        (Run.seq (panelLines temp windSpeed windDir humidity pressure visibility 0 icon)
          (say panelBottom))))

/-! ## Hourly table: the cells and the frame -/

/-- The local `tempStr` of the hourly loop. -/
def hourlyTempStr (temp : Option ℚ) : String :=
  match temp with
  | some t => sprintfFixed 1 t ++ "°"
  | none => "N/A"

/-- The local `feelsLikeStr` of the hourly loop. -/
def hourlyFeelsLikeStr (pow : ℚ → ℚ → ℚ) (temp wind humidity : Option ℚ) : String :=
  match temp, wind, humidity with
  | some t, some w, some h => sprintfFixed 1 (calculateApparentTemp pow t w h) ++ "°"
  | _, _, _ => "N/A"

/-- The local `windStr` of the hourly loop; `none` when `getWindDirection`
panics. -/
def hourlyWindStr (wind windDir : Option ℚ) : Option String :=
  match wind, windDir with
  | some w, some d =>
    match getWindDirection d with
    | some dir => some (sprintfFixed 1 w ++ "m/s " ++ dir)
    | none => none
  | some w, none => some (sprintfFixed 1 w ++ "m/s")
  | none, _ => some "N/A"

/-- The local `rainStr` of the hourly loop. -/
def hourlyRainStr (rain : Option ℚ) : String :=
  match rain with
  | some x => sprintfFixed 1 x ++ "mm"
  | none => "N/A"

/-- The local `humidityStr` of the hourly loop. -/
def hourlyHumidityStr (humidity : Option ℚ) : String :=
  match humidity with
  | some x => sprintfFixed 0 x ++ "%"
  | none => "N/A"

/-- The local `pressureStr` of the hourly loop. -/
def hourlyPressureStr (pressure : Option ℚ) : String :=
  match pressure with
  | some x => sprintfFixed 0 x ++ "hPa"
  | none => "N/A"

/-- The local `visStr` of the hourly loop. -/
def hourlyVisStr (vis : Option ℚ) : String :=
  match vis with
  | some x => sprintfFixed 1 x ++ "km"
  | none => "N/A"

/-- The local `cond` of the hourly loop (and `condition` of the panel). -/
def conditionOf (weatherSymbol : Option ℚ) : String :=
  match weatherSymbol with
  | some w => getWeatherConditionFromSymbol (goInt w)
  | none => "clear_sky"

/-- The final `fmt.Printf` of the hourly loop body, from the cell texts. -/
def hourlyRowText (timeStr tempStr feelsLikeStr windStr rainStr humidityStr
    pressureStr visStr condStr : String) : String :=
  "│ " ++ padLeft timeWidth timeStr ++
    " │ " ++ padLeft tempWidth tempStr ++
    " │ " ++ padLeft feelsLikeWidth feelsLikeStr ++
    " │ " ++ padLeft windWidth windStr ++
    " │ " ++ padLeft rainWidth rainStr ++
    " │ " ++ padLeft humidityWidth humidityStr ++
    " │ " ++ padLeft pressureWidth pressureStr ++
    " │ " ++ padLeft visibilityWidth visStr ++
    " │ " ++ condStr ++ " │\n"

/-- The title, the column heads and the rule printed before the rows. -/
def hourlyHeader : List String :=
  ["\n┌────────────────────────────────────────────── Hourly Forecast ──────────────────────────────────────────┐\n",
   "│ Time  │  Temp │ Feels like │   Wind     │  Rain  │ Humidity │ Pressure │ Visibility │ Condition         │\n",
   "├───────┼───────┼────────────┼────────────┼────────┼──────────┼──────────┼────────────┼───────────────────┤\n"]

/-- The closing border of the hourly table. -/
def hourlyBottom : String :=
  "└───────┴───────┴────────────┴────────────┴────────┴──────────┴──────────┴────────────┴───────────────────┘\n"

/-- The hourly table of `main`: the three frame lines, the rows, and, when
no row panicked, the closing border. -/
def hourlyTable (pow : ℚ → ℚ → ℚ) (clock : String → String)
    (timeSeries : List TimeSeriesEntry) : Run :=
  let rows := hourlyRows pow clock timeSeries
  Run.seq
    ⟨hourlyHeader ++ rows.1,
      if rows.2 then Status.done else Status.panic⟩
    (say hourlyBottom)

/-! ## The program -/

/-- The three banner lines and the empty line that `main` prints first. -/
def banner : List String :=
  ["\n╔═══════════════════════════════════════════════════════════╗\n",
   "║            Weather for Mälarhöjden, Stockholm             ║\n",
   "╚═══════════════════════════════════════════════════════════╝\n",
   "\n"]

/-- The function `main`, from the result of `getSMHIForecast` (an error text
or the decoded series) on. -/
def main (pow : ℚ → ℚ → ℚ) (clock dateClock : String → String)
    (fetch : Except String (List TimeSeriesEntry)) : Run :=
  Run.seq ⟨banner, Status.done⟩
    (match fetch with
     | Except.error err => ⟨["Error fetching weather: " ++ err ++ "\n"], Status.exit 1⟩
     | Except.ok timeSeries =>
       match timeSeries with
       | [] => ⟨["No forecast data available\n"], Status.exit 1⟩
       | current :: _ =>
         Run.seq (panel dateClock current) (hourlyTable pow clock timeSeries))

/-! ## Specification-side definitions -/

/-- The display width of a character as the specification counts it: 0 for the
variation selector U+FE0F, 2 for a pictographic character (here: the blocks
U+2600..U+27BF and U+1F300..U+1FAFF), 1 for every other character. -/
def charDisplayWidth (c : Char) : Nat :=
  if c.toNat = 0xFE0F then 0
  else if (0x2600 ≤ c.toNat ∧ c.toNat ≤ 0x27BF) ∨ (0x1F300 ≤ c.toNat ∧ c.toNat ≤ 0x1FAFF) then 2
  else 1

/-- The display width of a text: the sum over its characters. -/
def displayWidth (s : String) : Nat :=
  (s.data.map charDisplayWidth).sum

/-- The parameters of the single instant of the end-to-end example of the
specification. -/
def exampleParameters : List Parameter :=
  [⟨"t", [5.0]⟩, ⟨"ws", [3.0]⟩, ⟨"wd", [270]⟩, ⟨"r", [80]⟩, ⟨"msl", [1012]⟩,
   ⟨"vis", [10]⟩, ⟨"Wsymb2", [8]⟩]

/-- The closed enumeration of condition categories of the specification. -/
def conditionCategories : List String :=
  ["clear_sky", "nearly_clear_sky", "variable_cloudiness", "halfclear_sky",
   "cloudy_sky", "overcast", "fog", "rain_showers", "thunderstorm",
   "sleet_showers", "snow_showers", "rain", "thunder", "sleet", "snowfall"]

/-- The mathematical modulo of a bearing by 360, with result in `[0, 360)`, as
the specification words it (`b mod 360`). -/
def mod360 (b : ℚ) : ℚ :=
  b - 360 * ⌊b / 360⌋

/-! ## Theorems -/

/-- C1: the classifier is a total function on the integers and is the
documented table: codes 1 to 7 give the seven sky categories one by one, 8-10
rain_showers, 11 thunderstorm, 12-14 sleet_showers, 15-17 snow_showers, 18-20
rain, 21 thunder, 22-24 sleet, 25-27 snowfall, and every code below 1 or above
27 gives clear_sky. -/
theorem getWeatherConditionFromSymbol_table (c : Int) :
    (c = 1 → getWeatherConditionFromSymbol c = "clear_sky") ∧
    (c = 2 → getWeatherConditionFromSymbol c = "nearly_clear_sky") ∧
    (c = 3 → getWeatherConditionFromSymbol c = "variable_cloudiness") ∧
    (c = 4 → getWeatherConditionFromSymbol c = "halfclear_sky") ∧
    (c = 5 → getWeatherConditionFromSymbol c = "cloudy_sky") ∧
    (c = 6 → getWeatherConditionFromSymbol c = "overcast") ∧
    (c = 7 → getWeatherConditionFromSymbol c = "fog") ∧
    (8 ≤ c ∧ c ≤ 10 → getWeatherConditionFromSymbol c = "rain_showers") ∧
    (c = 11 → getWeatherConditionFromSymbol c = "thunderstorm") ∧
    (12 ≤ c ∧ c ≤ 14 → getWeatherConditionFromSymbol c = "sleet_showers") ∧
    (15 ≤ c ∧ c ≤ 17 → getWeatherConditionFromSymbol c = "snow_showers") ∧
    (18 ≤ c ∧ c ≤ 20 → getWeatherConditionFromSymbol c = "rain") ∧
    (c = 21 → getWeatherConditionFromSymbol c = "thunder") ∧
    (22 ≤ c ∧ c ≤ 24 → getWeatherConditionFromSymbol c = "sleet") ∧
    (25 ≤ c ∧ c ≤ 27 → getWeatherConditionFromSymbol c = "snowfall") ∧
    (c < 1 ∨ 27 < c → getWeatherConditionFromSymbol c = "clear_sky") := by
  refine ⟨?_, ?_, ?_, ?_, ?_, ?_, ?_, ?_, ?_, ?_, ?_, ?_, ?_, ?_, ?_, ?_⟩
  case refine_16 =>
    intro h
    unfold getWeatherConditionFromSymbol
    split <;> first | rfl | omega
  all_goals
    intro h
    have hc : 1 ≤ c ∧ c ≤ 27 := by omega
    obtain ⟨h1, h2⟩ := hc
    interval_cases c <;> first | rfl | omega

/-- C1 (witness): the default arm at the codes 0, -5, 28 and 9999. -/
theorem getWeatherConditionFromSymbol_table_witness :
    getWeatherConditionFromSymbol 0 = "clear_sky" ∧
    getWeatherConditionFromSymbol (-5) = "clear_sky" ∧
    getWeatherConditionFromSymbol 28 = "clear_sky" ∧
    getWeatherConditionFromSymbol 9999 = "clear_sky" ∧
    getWeatherConditionFromSymbol 9 = "rain_showers" :=
  ⟨(getWeatherConditionFromSymbol_table 0).2.2.2.2.2.2.2.2.2.2.2.2.2.2.2 (Or.inl (by decide)),
   (getWeatherConditionFromSymbol_table (-5)).2.2.2.2.2.2.2.2.2.2.2.2.2.2.2 (Or.inl (by decide)),
   (getWeatherConditionFromSymbol_table 28).2.2.2.2.2.2.2.2.2.2.2.2.2.2.2 (Or.inr (by decide)),
   (getWeatherConditionFromSymbol_table 9999).2.2.2.2.2.2.2.2.2.2.2.2.2.2.2 (Or.inr (by decide)),
   (getWeatherConditionFromSymbol_table 9).2.2.2.2.2.2.2.1 ⟨by decide, by decide⟩⟩

/-- The lookup is the first value of the first entry that has the name and a
non-empty value list, found by a left-to-right search. -/
theorem getParameterValue_eq_find (params : List Parameter) (name : String) :
    getParameterValue params name =
      (params.find? (fun p => decide (p.Name = name) && !p.Values.isEmpty)).bind
        (fun p => p.Values.head?) := by
  induction params with
  | nil => rfl
  | cons p ps ih =>
    unfold getParameterValue
    by_cases h : p.Name = name ∧ p.Values.length > 0
    · rw [dif_pos h]
      obtain ⟨h1, h2⟩ := h
      obtain ⟨w, ws, hw⟩ : ∃ w ws, p.Values = w :: ws := by
        cases hv : p.Values with
        | nil => simp [hv] at h2
        | cons w ws => exact ⟨w, ws, rfl⟩
      have hget : p.Values.get ⟨0, h2⟩ = w := by simp [hw]
      simp [hget, h1, hw, List.find?]
    · rw [dif_neg h, ih]
      have : (decide (p.Name = name) && !p.Values.isEmpty) = false := by
        cases hv : p.Values with
        | nil => simp
        | cons v vs =>
          have : ¬ p.Name = name := fun hn => h ⟨hn, by simp [hv]⟩
          simp [this]
      simp [List.find?, this]

/-- C2: the lookup returns a value exactly when some entry of the list has
exactly the given name and a non-empty value list; the value is then the first
value of the first such entry in list order (every entry before it lacks the
name or has no values), and otherwise the result is absent. On the list
`[{t: [21.5]}]` it returns 21.5 for "t" and absent for "ws" (and for "T"). -/
theorem getParameterValue_spec :
    (∀ (params : List Parameter) (name : String),
      ((∃ v, getParameterValue params name = some v) ↔
        ∃ p, p ∈ params ∧ p.Name = name ∧ p.Values ≠ []) ∧
      (∀ v, getParameterValue params name = some v ↔
        ∃ pre p vs post, params = pre ++ p :: post ∧
          (∀ q, q ∈ pre → ¬ (q.Name = name ∧ q.Values ≠ [])) ∧
          p.Name = name ∧ p.Values = v :: vs) ∧
      (getParameterValue params name = none ↔
        ∀ p, p ∈ params → ¬ (p.Name = name ∧ p.Values ≠ []))) ∧
    getParameterValue [⟨"t", [21.5]⟩] "t" = some 21.5 ∧
    getParameterValue [⟨"t", [21.5]⟩] "ws" = none ∧
    getParameterValue [⟨"t", [21.5]⟩] "T" = none := by
  have key : ∀ (params : List Parameter) (name : String) (v : ℚ),
      getParameterValue params name = some v ↔
        ∃ pre p vs post, params = pre ++ p :: post ∧
          (∀ q, q ∈ pre → ¬ (q.Name = name ∧ q.Values ≠ [])) ∧
          p.Name = name ∧ p.Values = v :: vs := by
    intro params name v
    induction params with
    | nil => simp [getParameterValue]
    | cons p ps ih =>
      unfold getParameterValue
      by_cases h : p.Name = name ∧ p.Values.length > 0
      · rw [dif_pos h]
        obtain ⟨h1, h2⟩ := h
        obtain ⟨w, ws, hw⟩ : ∃ w ws, p.Values = w :: ws := by
          cases hv : p.Values with
          | nil => simp [hv] at h2
          | cons w ws => exact ⟨w, ws, rfl⟩
        have hget : p.Values.get ⟨0, h2⟩ = w := by simp [hw]
        rw [hget]
        constructor
        · intro hv
          have hwv : w = v := by simpa using hv
          exact ⟨[], p, ws, ps, rfl, by simp, h1, by rw [hw, hwv]⟩
        · rintro ⟨pre, q, vs, post, hsplit, hpre, hq1, hq2⟩
          cases pre with
          | nil =>
            simp only [List.nil_append, List.cons.injEq] at hsplit
            obtain ⟨rfl, -⟩ := hsplit
            rw [hw] at hq2
            simp only [List.cons.injEq] at hq2
            rw [hq2.1]
          | cons r pre =>
            simp only [List.cons_append, List.cons.injEq] at hsplit
            obtain ⟨rfl, -⟩ := hsplit
            exact absurd ⟨h1, by simp [hw]⟩ (hpre p (by simp))
      · rw [dif_neg h, ih]
        have hp : ¬ (p.Name = name ∧ p.Values ≠ []) := by
          rintro ⟨h1, h2⟩
          exact h ⟨h1, List.length_pos.mpr h2⟩
        constructor
        · rintro ⟨pre, q, vs, post, hsplit, hpre, hq1, hq2⟩
          refine ⟨p :: pre, q, vs, post, by rw [hsplit]; rfl, ?_, hq1, hq2⟩
          intro r hr
          rcases List.mem_cons.mp hr with rfl | hr
          · exact hp
          · exact hpre r hr
        · rintro ⟨pre, q, vs, post, hsplit, hpre, hq1, hq2⟩
          cases pre with
          | nil =>
            simp only [List.nil_append, List.cons.injEq] at hsplit
            obtain ⟨rfl, -⟩ := hsplit
            exact absurd ⟨hq1, by simp [hq2]⟩ hp
          | cons r pre =>
            simp only [List.cons_append, List.cons.injEq] at hsplit
            obtain ⟨rfl, rfl⟩ := hsplit
            exact ⟨pre, q, vs, post, rfl, fun r hr => hpre r (by simp [hr]), hq1, hq2⟩
  have none_iff : ∀ (params : List Parameter) (name : String),
      getParameterValue params name = none ↔
        ∀ p, p ∈ params → ¬ (p.Name = name ∧ p.Values ≠ []) := by
    intro params name
    induction params with
    | nil => simp [getParameterValue]
    | cons p ps ih =>
      unfold getParameterValue
      by_cases h : p.Name = name ∧ p.Values.length > 0
      · rw [dif_pos h]
        simp only [reduceCtorEq, List.mem_cons, forall_eq_or_imp, false_iff, not_and, not_forall]
        intro hp
        exact absurd (List.length_pos.mp h.2) (hp h.1)
      · rw [dif_neg h, ih]
        have hp : ¬ (p.Name = name ∧ p.Values ≠ []) := by
          rintro ⟨h1, h2⟩
          exact h ⟨h1, List.length_pos.mpr h2⟩
        simp only [List.mem_cons, forall_eq_or_imp]
        exact ⟨fun hall => ⟨hp, hall⟩, fun hall => hall.2⟩
  refine ⟨fun params name => ⟨?_, key params name, none_iff params name⟩, ?_, ?_, ?_⟩
  · constructor
    · rintro ⟨v, hv⟩
      obtain ⟨pre, p, vs, post, hsplit, -, hp1, hp2⟩ := (key params name v).mp hv
      exact ⟨p, by simp [hsplit], hp1, by simp [hp2]⟩
    · rintro ⟨p, hmem, hp1, hp2⟩
      cases hres : getParameterValue params name with
      | some v => exact ⟨v, rfl⟩
      | none => exact absurd ⟨hp1, hp2⟩ ((none_iff params name).mp hres p hmem)
  · simp [getParameterValue]
  · simp [getParameterValue]
  · simp [getParameterValue]

/-! ### Compass direction -/

theorem goInt_of_nonneg {x : ℚ} (hx : 0 ≤ x) : goInt x = ⌊x⌋ := by
  simp [goInt, hx]

theorem goInt_of_neg {x : ℚ} (hx : x < 0) : goInt x = ⌈x⌉ := by
  simp [goInt, not_le.mpr hx]

/-- From the bearing -11.25 upwards the local `index` is the floor of the
quotient, and it is not negative. -/
theorem windIndex_of_ge {b : ℚ} (hb : -45 / 4 ≤ b) :
    windIndex b = ⌊(b + 45 / 4) / (45 / 2)⌋ ∧ 0 ≤ windIndex b := by
  have hq : (0 : ℚ) ≤ (b + 45 / 4) / (45 / 2) := by
    apply div_nonneg <;> linarith
  have h1 : windIndex b = ⌊(b + 45 / 4) / (45 / 2)⌋ := by
    unfold windIndex
    have e1 : (11.25 : ℚ) = 45 / 4 := by norm_num
    have e2 : (22.5 : ℚ) = 45 / 2 := by norm_num
    rw [e1, e2, goInt_of_nonneg hq]
  exact ⟨h1, by rw [h1]; exact Int.floor_nonneg.mpr hq⟩

/-- An index from 0 to 15 selects a label of `directions`. -/
theorem goIndex_directions {i : Int} (h0 : 0 ≤ i) (h16 : i < 16) :
    ∃ h : i.toNat < directions.length,
      goIndex directions i = some (directions.get ⟨i.toNat, h⟩) := by
  have hlt : i.toNat < directions.length := by
    have : directions.length = 16 := rfl
    rw [this]
    omega
  exact ⟨hlt, by simp [goIndex, h0, List.getElem?_eq_getElem hlt]⟩

/-- From the bearing -11.25 upwards the compass label is the one at the index
`floor ((b + 11.25) / 22.5) mod 16`. -/
theorem getWindDirection_of_ge {b : ℚ} (hb : -45 / 4 ≤ b) :
    getWindDirection b = goIndex directions (⌊(b + 45 / 4) / (45 / 2)⌋ % 16) := by
  obtain ⟨h1, h2⟩ := windIndex_of_ge hb
  unfold getWindDirection
  simp only []
  rw [Int.tmod_eq_emod h2 (by decide), h1]

/-- The compass label of a bearing whose quotient lies in `[n, n + 1)`. -/
theorem getWindDirection_of_sector {b : ℚ} (n : Int) (hn : 0 ≤ n)
    (h1 : (n : ℚ) * (45 / 2) - 45 / 4 ≤ b) (h2 : b < ((n : ℚ) + 1) * (45 / 2) - 45 / 4) :
    getWindDirection b = goIndex directions (n % 16) := by
  have hn' : (0 : ℚ) ≤ (n : ℚ) := by exact_mod_cast hn
  have hb : -45 / 4 ≤ b := by nlinarith
  rw [getWindDirection_of_ge hb]
  have : ⌊(b + 45 / 4) / (45 / 2)⌋ = n := by
    rw [Int.floor_eq_iff]
    constructor
    · rw [le_div_iff₀ (by norm_num)]
      linarith
    · rw [div_lt_iff₀ (by norm_num)]
      linarith
  rw [this]

/-- C4 (counterexample): the bearing 348.75 is not labelled NNW. -/
theorem getWindDirection_348_75_ne_NNW :
    getWindDirection 348.75 ≠ some "NNW" := by
  rw [getWindDirection_of_sector 16 (by decide) (by norm_num) (by norm_num)]
  decide

/-- C4 (amended): the bearing 348.75 is the lower edge of the N sector and is
labelled N; NNW is the label of every bearing b with 326.25 ≤ b < 348.75. -/
theorem getWindDirection_NNW_sector :
    getWindDirection 348.75 = some "N" ∧
    ∀ b : ℚ, 326.25 ≤ b → b < 348.75 → getWindDirection b = some "NNW" := by
  constructor
  · rw [getWindDirection_of_sector 16 (by decide) (by norm_num) (by norm_num)]; rfl
  · intro b h1 h2
    rw [getWindDirection_of_sector 15 (by decide) (by norm_num at h1 ⊢; linarith)
      (by norm_num at h2 ⊢; linarith)]
    rfl

/-- C4 (witness): the bearing 348.74 is labelled NNW. -/
theorem getWindDirection_NNW_sector_witness :
    (326.25 : ℚ) ≤ 348.74 ∧ (348.74 : ℚ) < 348.75 ∧
    getWindDirection 348.74 = some "NNW" :=
  ⟨by norm_num, by norm_num,
   getWindDirection_NNW_sector.2 348.74 (by norm_num) (by norm_num)⟩

/-- The modulo of a bearing by 360 lies in `[0, 360)`. -/
theorem mod360_range (b : ℚ) : 0 ≤ mod360 b ∧ mod360 b < 360 := by
  unfold mod360
  have h1 : ((⌊b / 360⌋ : Int) : ℚ) ≤ b / 360 := Int.floor_le _
  have h2 : b / 360 < ((⌊b / 360⌋ : Int) : ℚ) + 1 := Int.lt_floor_add_one _
  rw [le_div_iff₀ (by norm_num)] at h1
  rw [div_lt_iff₀ (by norm_num)] at h2
  constructor <;> linarith

/-- The modulo of the bearing -20 by 360 is 340. -/
theorem mod360_neg20 : mod360 (-20) = 340 := by
  unfold mod360
  have : ⌊(-20 : ℚ) / 360⌋ = -1 := by
    rw [Int.floor_eq_iff]
    norm_num
  rw [this]
  norm_num

/-- In exact arithmetic a bearing from -11.25 upwards and its modulo by 360
have the same compass label. -/
theorem getWindDirection_exact_mod360 (b : ℚ) (hb : -45 / 4 ≤ b) :
    getWindDirection b = getWindDirection (mod360 b) := by
  obtain ⟨hm0, -⟩ := mod360_range b
  rw [getWindDirection_of_ge hb, getWindDirection_of_ge (by linarith)]
  have hq : (mod360 b + 45 / 4) / (45 / 2) =
      (b + 45 / 4) / (45 / 2) - ((16 * ⌊b / 360⌋ : Int) : ℚ) := by
    unfold mod360
    push_cast
    ring
  rw [hq, Int.floor_sub_int]
  congr 1
  omega

/-- The local `index` of `getWindDirection` at the bearing -45 is -1. -/
theorem windIndex_neg45 : windIndex (-45) = -1 := by
  unfold windIndex
  rw [goInt_of_neg (by norm_num), Int.ceil_eq_iff]
  norm_num

/-- The bearing -45 makes `getWindDirection` panic. -/
theorem compass_neg45_none : getWindDirection (-45) = none := by
  unfold getWindDirection
  simp only []
  rw [windIndex_neg45]
  rfl

/-- C6 (the code at the failing input): for the bearing -45 the local `index`
is -1, Go's remainder `index % 16` is -1, which is not in 0..15, and indexing
the 16-label slice with it is the run-time panic. -/
theorem getWindDirection_neg45_panics :
    windIndex (-45) = -1 ∧ Int.tmod (windIndex (-45)) 16 = -1 ∧
    ¬ (0 ≤ Int.tmod (windIndex (-45)) 16) ∧
    getWindDirection (-45) = none := by
  refine ⟨windIndex_neg45, ?_, ?_, compass_neg45_none⟩
  · rw [windIndex_neg45]; rfl
  · rw [windIndex_neg45]; decide

/-- The index computed by `getWindDirection` is in 0..15 for every bearing
above -33.75 (the quotient is above -1, so its truncation is not negative). -/
theorem getWindDirection_index_in_range (b : ℚ) (hb : -33.75 < b) :
    0 ≤ Int.tmod (windIndex b) 16 ∧ Int.tmod (windIndex b) 16 < 16 ∧
    ∃ label, label ∈ directions ∧ getWindDirection b = some label := by
  have hq : (-1 : ℚ) < (b + 11.25) / 22.5 := by
    rw [lt_div_iff₀ (by norm_num)]
    norm_num at hb ⊢
    linarith
  have hw : 0 ≤ windIndex b := by
    unfold windIndex goInt
    split
    · exact Int.floor_nonneg.mpr (by assumption)
    · have : (-1 : Int) < ⌈(b + 11.25) / 22.5⌉ := by
        rw [Int.lt_ceil]
        exact_mod_cast hq
      omega
  have h0 : 0 ≤ Int.tmod (windIndex b) 16 := by
    rw [Int.tmod_eq_emod hw (by decide)]
    exact Int.emod_nonneg _ (by decide)
  have h16 : Int.tmod (windIndex b) 16 < 16 := by
    rw [Int.tmod_eq_emod hw (by decide)]
    exact Int.emod_lt_of_pos _ (by decide)
  refine ⟨h0, h16, ?_⟩
  obtain ⟨h, hget⟩ := goIndex_directions h0 h16
  exact ⟨_, List.get_mem _ _ _, hget⟩

/-! ### Apparent temperature -/

/-- C7: whenever neither guard holds, that is, not (temp ≤ 10 and
windSpeed ≥ 1.3) and not (temp ≥ 27 and humidity ≥ 40), the apparent
temperature is exactly temp; in particular it is 20 at (20, 5, 50). -/
theorem calculateApparentTemp_neutral (pow : ℚ → ℚ → ℚ) :
    (∀ temp windSpeed humidity : ℚ,
      ¬ (temp ≤ 10.0 ∧ windSpeed ≥ 1.3) → ¬ (temp ≥ 27.0 ∧ humidity ≥ 40.0) →
      calculateApparentTemp pow temp windSpeed humidity = temp) ∧
    calculateApparentTemp pow 20 5 50 = 20 := by
  have h : ∀ temp windSpeed humidity : ℚ,
      ¬ (temp ≤ 10.0 ∧ windSpeed ≥ 1.3) → ¬ (temp ≥ 27.0 ∧ humidity ≥ 40.0) →
      calculateApparentTemp pow temp windSpeed humidity = temp := by
    intro temp windSpeed humidity h1 h2
    unfold calculateApparentTemp
    rw [if_neg h1, if_neg h2]
  exact ⟨h, h 20 5 50 (by norm_num) (by norm_num)⟩

/-- C7 (witness): a mild, calm and dry instant keeps its temperature. -/
theorem calculateApparentTemp_neutral_witness :
    ¬ ((15 : ℚ) ≤ 10.0 ∧ (1 : ℚ) ≥ 1.3) ∧ ¬ ((15 : ℚ) ≥ 27.0 ∧ (30 : ℚ) ≥ 40.0) ∧
    calculateApparentTemp (fun _ _ => 0) 15 1 30 = 15 :=
  ⟨by norm_num, by norm_num,
   (calculateApparentTemp_neutral (fun _ _ => 0)).1 15 1 30 (by norm_num) (by norm_num)⟩

/-- C8: for temp ≥ 27 and humidity ≥ 40 and every wind speed, the apparent
temperature is the nine-term heat-index polynomial in T = temp and
H = humidity with the coefficients c1..c9 of the source, whatever the wind
speed is; in particular at (30, 1, 60). -/
theorem calculateApparentTemp_heat_index (pow : ℚ → ℚ → ℚ) :
    (∀ T windSpeed H : ℚ, T ≥ 27.0 → H ≥ 40.0 →
      calculateApparentTemp pow T windSpeed H =
        -8.78469475556 + 1.61139411 * T + 2.33854883889 * H + -0.14611605 * T * H +
          -0.012308094 * T ^ 2 + -0.0164248277778 * H ^ 2 + 0.002211732 * T ^ 2 * H +
          0.00072546 * T * H ^ 2 + -0.000003582 * T ^ 2 * H ^ 2) ∧
    calculateApparentTemp pow 30 1 60 =
      -8.78469475556 + 1.61139411 * 30 + 2.33854883889 * 60 + -0.14611605 * 30 * 60 +
        -0.012308094 * 30 ^ 2 + -0.0164248277778 * 60 ^ 2 + 0.002211732 * 30 ^ 2 * 60 +
        0.00072546 * 30 * 60 ^ 2 + -0.000003582 * 30 ^ 2 * 60 ^ 2 := by
  have h : ∀ T windSpeed H : ℚ, T ≥ 27.0 → H ≥ 40.0 →
      calculateApparentTemp pow T windSpeed H =
        -8.78469475556 + 1.61139411 * T + 2.33854883889 * H + -0.14611605 * T * H +
          -0.012308094 * T ^ 2 + -0.0164248277778 * H ^ 2 + 0.002211732 * T ^ 2 * H +
          0.00072546 * T * H ^ 2 + -0.000003582 * T ^ 2 * H ^ 2 := by
    intro T windSpeed H hT hH
    have h1 : ¬ (T ≤ 10.0 ∧ windSpeed ≥ 1.3) := by
      rintro ⟨h10, -⟩
      norm_num at hT h10
      linarith
    unfold calculateApparentTemp
    rw [if_neg h1, if_pos ⟨hT, hH⟩]
    ring
  exact ⟨h, h 30 1 60 (by norm_num) (by norm_num)⟩

/-- C8 (witness): the heat index at (30, 1, 60) does not depend on the wind
speed: it is the same at wind speed 25. -/
theorem calculateApparentTemp_heat_index_witness :
    (30 : ℚ) ≥ 27.0 ∧ (60 : ℚ) ≥ 40.0 ∧
    calculateApparentTemp (fun _ _ => 0) 30 25 60 =
      -8.78469475556 + 1.61139411 * 30 + 2.33854883889 * 60 + -0.14611605 * 30 * 60 +
        -0.012308094 * 30 ^ 2 + -0.0164248277778 * 60 ^ 2 + 0.002211732 * 30 ^ 2 * 60 +
        0.00072546 * 30 * 60 ^ 2 + -0.000003582 * 30 ^ 2 * 60 ^ 2 :=
  ⟨by norm_num, by norm_num,
   (calculateApparentTemp_heat_index (fun _ _ => 0)).1 30 25 60 (by norm_num) (by norm_num)⟩

/-- The real power `18 ^ 0.16` lies strictly between 1.5 and 1.7. -/
theorem rpow_18_bounds :
    (3 / 2 : ℝ) < (18 : ℝ) ^ (0.16 : ℝ) ∧ (18 : ℝ) ^ (0.16 : ℝ) < 17 / 10 := by
  have hy0 : (0 : ℝ) ≤ (18 : ℝ) ^ (0.16 : ℝ) := Real.rpow_nonneg (by norm_num) _
  have hy : ((18 : ℝ) ^ (0.16 : ℝ)) ^ (25 : ℕ) = 18 ^ 4 := by
    rw [← Real.rpow_natCast, ← Real.rpow_mul (by norm_num)]
    have : (0.16 : ℝ) * ((25 : ℕ) : ℝ) = ((4 : ℕ) : ℝ) := by norm_num
    rw [this, Real.rpow_natCast]
  constructor
  · by_contra hle
    have hle' : (18 : ℝ) ^ (0.16 : ℝ) ≤ 3 / 2 := not_lt.mp hle
    have := pow_le_pow_left₀ hy0 hle' 25
    rw [hy] at this
    norm_num at this
  · by_contra hle
    have hle' : (17 / 10 : ℝ) ≤ (18 : ℝ) ^ (0.16 : ℝ) := not_lt.mp hle
    have := pow_le_pow_left₀ (by norm_num) hle' 25
    rw [hy] at this
    norm_num at this

/-- C9: for temp ≤ 10 and windSpeed ≥ 1.3 and every humidity, the apparent
temperature is the wind-chill value
`13.12 + 0.6215 T - 11.37 V^0.16 + 0.3965 T V^0.16` with T = temp and
V = 3.6 * windSpeed, whatever the humidity is; and at (0, 5, 50), where V is
18, the value is negative, hence differs from the raw temperature 0, as soon
as `pow 18 0.16` is within 0.1 of the real power `18 ^ 0.16`. -/
theorem calculateApparentTemp_wind_chill (pow : ℚ → ℚ → ℚ) :
    (∀ T windSpeed humidity : ℚ, T ≤ 10.0 → windSpeed ≥ 1.3 →
      calculateApparentTemp pow T windSpeed humidity =
        13.12 + 0.6215 * T - 11.37 * pow (3.6 * windSpeed) 0.16 +
          0.3965 * T * pow (3.6 * windSpeed) 0.16) ∧
    (|((pow 18 0.16 : ℚ) : ℝ) - (18 : ℝ) ^ (0.16 : ℝ)| ≤ 1 / 10 →
      calculateApparentTemp pow 0 5 50 = 13.12 - 11.37 * pow 18 0.16 ∧
      calculateApparentTemp pow 0 5 50 < 0 ∧
      calculateApparentTemp pow 0 5 50 ≠ 0) := by
  have h : ∀ T windSpeed humidity : ℚ, T ≤ 10.0 → windSpeed ≥ 1.3 →
      calculateApparentTemp pow T windSpeed humidity =
        13.12 + 0.6215 * T - 11.37 * pow (3.6 * windSpeed) 0.16 +
          0.3965 * T * pow (3.6 * windSpeed) 0.16 := by
    intro T windSpeed humidity hT hW
    unfold calculateApparentTemp
    rw [if_pos ⟨hT, hW⟩]
    simp only [mul_comm windSpeed]
  refine ⟨h, fun hpow => ?_⟩
  have hval : calculateApparentTemp pow 0 5 50 = 13.12 - 11.37 * pow 18 0.16 := by
    rw [h 0 5 50 (by norm_num) (by norm_num)]
    have : (3.6 : ℚ) * 5 = 18 := by norm_num
    rw [this]
    ring
  have hlow : (7 / 5 : ℝ) < ((pow 18 0.16 : ℚ) : ℝ) := by
    have := rpow_18_bounds.1
    have := (abs_le.mp hpow).1
    linarith
  have hlowq : (7 / 5 : ℚ) < pow 18 0.16 := by
    have hc : (((7 / 5 : ℚ) : ℚ) : ℝ) < ((pow 18 0.16 : ℚ) : ℝ) := by
      push_cast
      exact hlow
    exact Rat.cast_lt.mp hc
  have hneg : calculateApparentTemp pow 0 5 50 < 0 := by
    rw [hval]
    norm_num
    linarith
  exact ⟨hval, hneg, ne_of_lt hneg⟩

/-- C9 (witness): with a power function that answers 1.6 (within 0.1 of
`18 ^ 0.16`), the input (0, 5, 50) meets both guards of the wind-chill branch
and its apparent temperature is `13.12 - 11.37 * 1.6`, not 0. -/
theorem calculateApparentTemp_wind_chill_witness :
    (0 : ℚ) ≤ 10.0 ∧ (5 : ℚ) ≥ 1.3 ∧
    |(((1.6 : ℚ) : ℚ) : ℝ) - (18 : ℝ) ^ (0.16 : ℝ)| ≤ 1 / 10 ∧
    calculateApparentTemp (fun _ _ => 1.6) 0 5 50 =
      13.12 + 0.6215 * 0 - 11.37 * 1.6 + 0.3965 * 0 * 1.6 ∧
    calculateApparentTemp (fun _ _ => 1.6) 0 5 50 = 13.12 - 11.37 * 1.6 ∧
    calculateApparentTemp (fun _ _ => 1.6) 0 5 50 ≠ 0 := by
  have hw : |(((1.6 : ℚ) : ℚ) : ℝ) - (18 : ℝ) ^ (0.16 : ℝ)| ≤ 1 / 10 := by
    obtain ⟨h1, h2⟩ := rpow_18_bounds
    rw [abs_le]
    constructor <;> norm_num <;> linarith
  have hform := (calculateApparentTemp_wind_chill (fun _ _ => 1.6)).1 0 5 50
    (by norm_num) (by norm_num)
  have h := (calculateApparentTemp_wind_chill (fun _ _ => 1.6)).2 hw
  exact ⟨by norm_num, by norm_num, hw, hform, h.1, h.2.2⟩

/-! ### Hourly table -/

/-- When every one of the first twelve entries renders without a panic, the
loop runs to its end and prints one row per entry of the first
`min 12 (length)` entries, in order. -/
theorem hourlyLoop_of_rows (pow : ℚ → ℚ → ℚ) (clock : String → String)
    (ts : List TimeSeriesEntry) :
    ∀ (n i : Nat), 12 - i = n →
      (∀ e, e ∈ (ts.take 12).drop i → (hourlyRow pow clock e).isSome = true) →
      (hourlyLoop pow clock ts i).2 = true ∧
      (hourlyLoop pow clock ts i).1.map some =
        ((ts.take 12).drop i).map (hourlyRow pow clock) := by
  intro n
  induction n with
  | zero =>
    intro i hi _
    have hnot : ¬ (i < 12 ∧ i < ts.length) := by omega
    rw [hourlyLoop, dif_neg hnot]
    have hdrop : (ts.take 12).drop i = [] := by
      apply List.drop_eq_nil_of_le
      simp only [List.length_take]
      omega
    simp [hdrop]
  | succ n ih =>
    intro i hi hall
    rw [hourlyLoop]
    by_cases hlt : i < 12 ∧ i < ts.length
    · rw [dif_pos hlt]
      have hlen : i < (ts.take 12).length := by
        simp only [List.length_take]
        omega
      have hdrop : (ts.take 12).drop i = ts.get ⟨i, hlt.2⟩ :: (ts.take 12).drop (i + 1) := by
        rw [List.drop_eq_getElem_cons hlen]
        simp [List.getElem_take]
      rw [hdrop] at hall ⊢
      have hrow := hall (ts.get ⟨i, hlt.2⟩) (by simp)
      obtain ⟨row, hrow'⟩ := Option.isSome_iff_exists.mp hrow
      obtain ⟨ih1, ih2⟩ := ih (i + 1) (by omega) (fun e he => hall e (by simp [he]))
      rw [hrow']
      simp only [List.map_cons, List.cons.injEq]
      exact ⟨ih1, hrow'.symm ▸ rfl, ih2⟩
    · rw [dif_neg hlt]
      have hdrop : (ts.take 12).drop i = [] := by
        apply List.drop_eq_nil_of_le
        simp only [List.length_take]
        omega
      simp [hdrop]

/-- A row is rendered (no panic) exactly when the entry lacks a wind speed or
a wind bearing, or the bearing has a compass label. -/
theorem hourlyRow_isSome_iff (pow : ℚ → ℚ → ℚ) (clock : String → String)
    (e : TimeSeriesEntry) :
    (hourlyRow pow clock e).isSome = true ↔
      ∀ w d, getParameterValue e.Parameters "ws" = some w →
        getParameterValue e.Parameters "wd" = some d →
        (getWindDirection d).isSome = true := by
  unfold hourlyRow
  cases hw : getParameterValue e.Parameters "ws" <;>
    cases hd : getParameterValue e.Parameters "wd" <;> simp
  cases hg : getWindDirection _ <;> simp

/-- For a series none of whose first twelve entries has both a wind speed and
a bearing at or below -33.75, the hourly table has exactly
`min 12 (length)` rows, and they are the renderings of the first that many
entries in order. -/
theorem hourlyRows_of_bearings (pow : ℚ → ℚ → ℚ) (clock : String → String)
    (ts : List TimeSeriesEntry)
    (h : ∀ e, e ∈ ts.take 12 → ∀ w d, getParameterValue e.Parameters "ws" = some w →
      getParameterValue e.Parameters "wd" = some d → -33.75 < d) :
    (hourlyRows pow clock ts).2 = true ∧
    (hourlyRows pow clock ts).1.length = min 12 ts.length ∧
    (hourlyRows pow clock ts).1.map some = (ts.take 12).map (hourlyRow pow clock) := by
  have hall : ∀ e, e ∈ (ts.take 12).drop 0 → (hourlyRow pow clock e).isSome = true := by
    intro e he
    rw [hourlyRow_isSome_iff]
    intro w d hw hd
    obtain ⟨-, -, label, -, hl⟩ := getWindDirection_index_in_range d (h e (by simpa using he) w d hw hd)
    simp [hl]
  obtain ⟨h1, h2⟩ := hourlyLoop_of_rows pow clock ts 12 0 rfl hall
  refine ⟨h1, ?_, by simpa using h2⟩
  have := congrArg List.length h2
  simpa using this

/-- C10 (the code at the failing input): for the series of two instants whose
second instant has the wind speed 3 and the bearing -45, the loop prints the
row of the first instant and panics in `getWindDirection` while it builds the
second row: one data row is rendered, whereas min(12, length) is 2. -/
theorem hourlyRows_stops_at_negative_bearing :
    ∀ (pow : ℚ → ℚ → ℚ) (clock : String → String),
      (hourlyRows pow clock
        [⟨"2024-06-01T12:00:00Z", [⟨"t", [5]⟩, ⟨"ws", [3]⟩, ⟨"wd", [270]⟩]⟩,
         ⟨"2024-06-01T13:00:00Z", [⟨"t", [5]⟩, ⟨"ws", [3]⟩, ⟨"wd", [-45]⟩]⟩]).2 = false ∧
      (hourlyRows pow clock
        [⟨"2024-06-01T12:00:00Z", [⟨"t", [5]⟩, ⟨"ws", [3]⟩, ⟨"wd", [270]⟩]⟩,
         ⟨"2024-06-01T13:00:00Z", [⟨"t", [5]⟩, ⟨"ws", [3]⟩, ⟨"wd", [-45]⟩]⟩]).1.length = 1 ∧
      min 12 (List.length
        [(⟨"2024-06-01T12:00:00Z", [⟨"t", [5]⟩, ⟨"ws", [3]⟩, ⟨"wd", [270]⟩]⟩ : TimeSeriesEntry),
         ⟨"2024-06-01T13:00:00Z", [⟨"t", [5]⟩, ⟨"ws", [3]⟩, ⟨"wd", [-45]⟩]⟩]) = 2 := by
  intro pow clock
  have h270 : getWindDirection 270 = some "W" := by
    rw [getWindDirection_of_sector 12 (by decide) (by norm_num) (by norm_num)]
    rfl
  have h0 : ∃ row, hourlyRow pow clock
      ⟨"2024-06-01T12:00:00Z", [⟨"t", [5]⟩, ⟨"ws", [3]⟩, ⟨"wd", [270]⟩]⟩ = some row := by
    apply Option.isSome_iff_exists.mp
    rw [hourlyRow_isSome_iff]
    intro w d _ hd
    have : d = 270 := by
      simp [getParameterValue] at hd
      exact hd.symm
    rw [this, h270]
    rfl
  have h1 : hourlyRow pow clock
      ⟨"2024-06-01T13:00:00Z", [⟨"t", [5]⟩, ⟨"ws", [3]⟩, ⟨"wd", [-45]⟩]⟩ = none := by
    have hws : getParameterValue [⟨"t", [5]⟩, ⟨"ws", [3]⟩, ⟨"wd", [-45]⟩] "ws" = some 3 := by
      simp [getParameterValue]
    have hwd : getParameterValue [⟨"t", [5]⟩, ⟨"ws", [3]⟩, ⟨"wd", [-45]⟩] "wd" = some (-45) := by
      simp [getParameterValue]
    unfold hourlyRow
    simp only [hws, hwd, compass_neg45_none]
  obtain ⟨row, hrow⟩ := h0
  have hloop : hourlyRows pow clock
      [⟨"2024-06-01T12:00:00Z", [⟨"t", [5]⟩, ⟨"ws", [3]⟩, ⟨"wd", [270]⟩]⟩,
       ⟨"2024-06-01T13:00:00Z", [⟨"t", [5]⟩, ⟨"ws", [3]⟩, ⟨"wd", [-45]⟩]⟩] = ([row], false) := by
    unfold hourlyRows
    rw [hourlyLoop, dif_pos (by simp)]
    simp only [List.get_eq_getElem, List.getElem_cons_zero, hrow]
    rw [hourlyLoop, dif_pos (by simp)]
    simp only [List.get_eq_getElem, List.getElem_cons_succ, List.getElem_cons_zero, h1]
  rw [hloop]
  exact ⟨rfl, rfl, rfl⟩

/-! ### Icon catalog and condition labels -/

/-- The keys of the map `icons` are the fifteen categories. -/
theorem icons_isSome_iff (s : String) :
    (icons s).isSome = true ↔ s ∈ conditionCategories := by
  constructor
  · intro h
    unfold icons at h
    split at h <;> first | (simp [conditionCategories]; done) | simp at h
  · intro h
    simp only [conditionCategories, List.mem_cons, List.mem_singleton, List.not_mem_nil,
      or_false] at h
    rcases h with h | h | h | h | h | h | h | h | h | h | h | h | h | h | h <;> subst h <;> rfl

/-- Every block stored in the map `icons` has five lines. -/
theorem icons_length (s : String) (icon : List String) (h : icons s = some icon) :
    icon.length = 5 := by
  have hmem : s ∈ conditionCategories := (icons_isSome_iff s).mp (by simp [h])
  simp only [conditionCategories, List.mem_cons, List.mem_singleton, List.not_mem_nil,
    or_false] at hmem
  rcases hmem with e | e | e | e | e | e | e | e | e | e | e | e | e | e | e <;> subst e <;>
    · have h2 := Option.some.inj h
      rw [← h2]
      rfl

/-- The classifier returns one of the fifteen categories. -/
theorem getWeatherConditionFromSymbol_mem (c : Int) :
    getWeatherConditionFromSymbol c ∈ conditionCategories := by
  unfold getWeatherConditionFromSymbol
  split <;> simp [conditionCategories]

/-- The label of each of the fifteen categories is not empty. -/
theorem condText_ne_empty (s : String) (h : s ∈ conditionCategories) : condText s ≠ "" := by
  simp only [conditionCategories, List.mem_cons, List.mem_singleton, List.not_mem_nil,
    or_false] at h
  rcases h with e | e | e | e | e | e | e | e | e | e | e | e | e | e | e <;> subst e <;> decide

/-- On a string that is none of the fifteen categories `getWeatherIcon`
returns the block of clear_sky. -/
theorem getWeatherIcon_fallback (s : String) (hs : s ∉ conditionCategories) :
    getWeatherIcon s = getWeatherIcon "clear_sky" := by
  have hnone : icons s = none := by
    cases h : icons s with
    | none => rfl
    | some icon => exact absurd ((icons_isSome_iff s).mp (by simp [h])) hs
  unfold getWeatherIcon
  rw [hnone]
  rfl

/-- C16: `getWeatherIcon` is total on strings: on each of the fifteen
categories it returns that category's five-line block, listed here line by
line; on every other string it returns exactly the block of clear_sky; and
every block it returns has exactly five lines. -/
theorem getWeatherIcon_total :
    (∀ s : String, s ∉ conditionCategories →
      getWeatherIcon s = getWeatherIcon "clear_sky") ∧
    (∀ s : String, (getWeatherIcon s).length = 5) ∧
    (∀ s : String, s ∈ conditionCategories → icons s = some (getWeatherIcon s)) ∧
    getWeatherIcon "clear_sky" =
      ["    \\   /    ",
       "     .-.     ",
       "  ― (   ) ―  ",
       "     `-'     ",
       "    /   \\    "] ∧
    getWeatherIcon "nearly_clear_sky" =
      ["   \\  /      ",
       " _ /\"\".-.    ",
       "   \\_(   ).  ",
       "   /(___(__).",
       "             "] ∧
    getWeatherIcon "variable_cloudiness" =
      ["   \\  /      ",
       " _ /\"\".-.    ",
       "   \\_(   ).  ",
       "   /(___(__).",
       "             "] ∧
    getWeatherIcon "halfclear_sky" =
      ["   \\  /      ",
       " _ /\"\".-.    ",
       "   \\_(   ).  ",
       "   /(___(__).",
       "             "] ∧
    getWeatherIcon "cloudy_sky" =
      ["             ",
       "     .--.    ",
       "  .-(    ).  ",
       " (___.__)__) ",
       "             "] ∧
    getWeatherIcon "overcast" =
      ["             ",
       "     .--.    ",
       "  .-(    ).  ",
       " (___.__)__) ",
       "             "] ∧
    getWeatherIcon "fog" =
      ["             ",
       " _ - _ - _ - ",
       "  _ - _ - _  ",
       " _ - _ - _ - ",
       "             "] ∧
    getWeatherIcon "rain_showers" =
      ["     .-.     ",
       "    (   ).   ",
       "   (___(__)  ",
       "    ' ' ' '  ",
       "   ' ' ' '   "] ∧
    getWeatherIcon "thunderstorm" =
      ["     .-.     ",
       "    (   ).   ",
       "   (___(__)  ",
       "    ⚡ ⚡ ⚡   ",
       "  ‚'‚'‚'‚'   "] ∧
    getWeatherIcon "sleet_showers" =
      ["     .-.     ",
       "    (   ).   ",
       "   (___(__)  ",
       "    * ' * '  ",
       "   * ' * '   "] ∧
    getWeatherIcon "snow_showers" =
      ["     .-.     ",
       "    (   ).   ",
       "   (___(__)  ",
       "    *  *  *  ",
       "   *  *  *   "] ∧
    getWeatherIcon "rain" =
      ["     .-.     ",
       "    (   ).   ",
       "   (___(__)  ",
       "  ‚'‚'‚'‚'   ",
       "  ‚'‚'‚'‚'   "] ∧
    getWeatherIcon "thunder" =
      ["     .-.     ",
       "    (   ).   ",
       "   (___(__)  ",
       "    ⚡ ⚡ ⚡   ",
       "  ‚'‚'‚'‚'   "] ∧
    getWeatherIcon "sleet" =
      ["     .-.     ",
       "    (   ).   ",
       "   (___(__)  ",
       "  * ' * ' *  ",
       "  * ' * ' *  "] ∧
    getWeatherIcon "snowfall" =
      ["     .-.     ",
       "    (   ).   ",
       "   (___(__)  ",
       "   *  *  *   ",
       "  *  *  *  * "] := by
  have hkey : ∀ s : String, s ∈ conditionCategories → icons s = some (getWeatherIcon s) := by
    intro s hs
    obtain ⟨icon, hicon⟩ := Option.isSome_iff_exists.mp ((icons_isSome_iff s).mpr hs)
    unfold getWeatherIcon
    rw [hicon]
  refine ⟨getWeatherIcon_fallback, ?_, hkey, rfl, rfl, rfl, rfl, rfl, rfl, rfl, rfl, rfl, rfl,
    rfl, rfl, rfl, rfl, rfl⟩
  intro s
  by_cases hs : s ∈ conditionCategories
  · exact icons_length s _ (hkey s hs)
  · rw [getWeatherIcon_fallback s hs]
    exact icons_length "clear_sky" _ (hkey _ (by decide))

/-- C16 (witness): the string "tornado", which is no category, gets the block
of clear_sky, the sun; the category fog has its own block. -/
theorem getWeatherIcon_total_witness :
    "tornado" ∉ conditionCategories ∧ "fog" ∈ conditionCategories ∧
    getWeatherIcon "tornado" = getWeatherIcon "clear_sky" ∧
    icons "fog" = some (getWeatherIcon "fog") ∧
    getWeatherIcon "fog" ≠ getWeatherIcon "clear_sky" :=
  ⟨by decide, by decide, getWeatherIcon_total.1 "tornado" (by decide),
   getWeatherIcon_total.2.2.1 "fog" (by decide), by decide⟩

/-- C19: for every integer symbol code the category returned by the
classifier is a key of the icon map, so `getWeatherIcon` returns the block
stored under it and not the fallback, and it is a key of `condText`, whose
label for it is not the empty string; the same holds for the default
clear_sky, hence for the condition of every instant, with or without a
`Wsymb2` parameter. -/
theorem condition_is_catalog_key :
    (∀ c : Int,
      icons (getWeatherConditionFromSymbol c) =
        some (getWeatherIcon (getWeatherConditionFromSymbol c)) ∧
      condText (getWeatherConditionFromSymbol c) ≠ "") ∧
    (icons "clear_sky" = some (getWeatherIcon "clear_sky") ∧ condText "clear_sky" ≠ "") ∧
    (∀ weatherSymbol : Option ℚ,
      icons (conditionOf weatherSymbol) = some (getWeatherIcon (conditionOf weatherSymbol)) ∧
      condText (conditionOf weatherSymbol) ≠ "") := by
  have hkey : ∀ s : String, s ∈ conditionCategories →
      icons s = some (getWeatherIcon s) ∧ condText s ≠ "" := by
    intro s hs
    obtain ⟨icon, hicon⟩ := Option.isSome_iff_exists.mp ((icons_isSome_iff s).mpr hs)
    refine ⟨?_, condText_ne_empty s hs⟩
    unfold getWeatherIcon
    rw [hicon]
  refine ⟨fun c => hkey _ (getWeatherConditionFromSymbol_mem c), hkey _ (by decide), ?_⟩
  intro weatherSymbol
  cases weatherSymbol with
  | none => exact hkey _ (by decide)
  | some w => exact hkey _ (getWeatherConditionFromSymbol_mem (goInt w))

/-- C15 (the code at the failing input): under the stated measure the label of
halfclear_sky is 17 columns wide, one less than `conditionWidth`, while each
of the other fourteen labels is 18 columns wide. -/
theorem condText_halfclear_width :
    displayWidth (condText "halfclear_sky") = 17 ∧ conditionWidth = 18 ∧
    (∀ s : String, s ∈ conditionCategories → s ≠ "halfclear_sky" →
      displayWidth (condText s) = 18) := by
  refine ⟨by decide, rfl, ?_⟩
  intro s hs hne
  simp only [conditionCategories, List.mem_cons, List.mem_singleton, List.not_mem_nil,
    or_false] at hs
  rcases hs with e | e | e | e | e | e | e | e | e | e | e | e | e | e | e <;> subst e <;>
    first | decide | exact absurd rfl hne

/-! ### Regime boundaries -/

/-- C18 (counterexample): at temperature exactly 27.0 with humidity exactly
40.0 the result is not the temperature 27 (it is the heat index, about 26.86;
the power function is not consulted on this branch). -/
theorem calculateApparentTemp_boundary_27 :
    calculateApparentTemp (fun _ _ => 0) 27.0 0 40.0 ≠ 27.0 := by
  have h1 : ¬ ((27.0 : ℚ) ≤ 10.0 ∧ (0 : ℚ) ≥ 1.3) := by norm_num
  have h2 : (27.0 : ℚ) ≥ 27.0 ∧ (40.0 : ℚ) ≥ 40.0 := by norm_num
  unfold calculateApparentTemp
  rw [if_neg h1, if_pos h2]
  norm_num

/-- C18 (amended): the guards are inclusive, so at the regime boundaries the
guarded branch applies: with temperature exactly 10.0 and windSpeed ≥ 1.3, or
windSpeed exactly 1.3 and temp ≤ 10.0, the result is the wind-chill value;
with temperature exactly 27.0 and humidity ≥ 40.0, or humidity exactly 40.0
and temp ≥ 27.0, the result is the heat-index polynomial. -/
theorem calculateApparentTemp_boundaries (pow : ℚ → ℚ → ℚ) :
    (∀ windSpeed humidity : ℚ, windSpeed ≥ 1.3 →
      calculateApparentTemp pow 10.0 windSpeed humidity =
        13.12 + 0.6215 * 10.0 - 11.37 * pow (windSpeed * 3.6) 0.16 +
          0.3965 * 10.0 * pow (windSpeed * 3.6) 0.16) ∧
    (∀ temp humidity : ℚ, temp ≤ 10.0 →
      calculateApparentTemp pow temp 1.3 humidity =
        13.12 + 0.6215 * temp - 11.37 * pow (1.3 * 3.6) 0.16 +
          0.3965 * temp * pow (1.3 * 3.6) 0.16) ∧
    (∀ windSpeed H : ℚ, H ≥ 40.0 →
      calculateApparentTemp pow 27.0 windSpeed H =
        -8.78469475556 + 1.61139411 * 27.0 + 2.33854883889 * H + -0.14611605 * 27.0 * H +
          -0.012308094 * 27.0 ^ 2 + -0.0164248277778 * H ^ 2 + 0.002211732 * 27.0 ^ 2 * H +
          0.00072546 * 27.0 * H ^ 2 + -0.000003582 * 27.0 ^ 2 * H ^ 2) ∧
    (∀ T windSpeed : ℚ, T ≥ 27.0 →
      calculateApparentTemp pow T windSpeed 40.0 =
        -8.78469475556 + 1.61139411 * T + 2.33854883889 * 40.0 + -0.14611605 * T * 40.0 +
          -0.012308094 * T ^ 2 + -0.0164248277778 * 40.0 ^ 2 + 0.002211732 * T ^ 2 * 40.0 +
          0.00072546 * T * 40.0 ^ 2 + -0.000003582 * T ^ 2 * 40.0 ^ 2) := by
  have hcold : ∀ T windSpeed humidity : ℚ, T ≤ 10.0 → windSpeed ≥ 1.3 →
      calculateApparentTemp pow T windSpeed humidity =
        13.12 + 0.6215 * T - 11.37 * pow (windSpeed * 3.6) 0.16 +
          0.3965 * T * pow (windSpeed * 3.6) 0.16 := by
    intro T windSpeed humidity hT hW
    unfold calculateApparentTemp
    rw [if_pos ⟨hT, hW⟩]
  have hhot : ∀ T windSpeed H : ℚ, T ≥ 27.0 → H ≥ 40.0 →
      calculateApparentTemp pow T windSpeed H =
        -8.78469475556 + 1.61139411 * T + 2.33854883889 * H + -0.14611605 * T * H +
          -0.012308094 * T ^ 2 + -0.0164248277778 * H ^ 2 + 0.002211732 * T ^ 2 * H +
          0.00072546 * T * H ^ 2 + -0.000003582 * T ^ 2 * H ^ 2 := by
    intro T windSpeed H hT hH
    have h1 : ¬ (T ≤ 10.0 ∧ windSpeed ≥ 1.3) := by
      rintro ⟨h10, -⟩
      norm_num at hT h10
      linarith
    unfold calculateApparentTemp
    rw [if_neg h1, if_pos ⟨hT, hH⟩]
    ring
  refine ⟨?_, ?_, ?_, ?_⟩
  · intro windSpeed humidity hW
    exact hcold 10.0 windSpeed humidity (by norm_num) hW
  · intro temp humidity hT
    exact hcold temp 1.3 humidity hT (by norm_num)
  · intro windSpeed H hH
    exact hhot 27.0 windSpeed H (by norm_num) hH
  · intro T windSpeed hT
    exact hhot T windSpeed 40.0 hT (by norm_num)

/-- C18 (witness): the four boundary cases at concrete inputs, with a power
function that answers 1.6. -/
theorem calculateApparentTemp_boundaries_witness :
    (5 : ℚ) ≥ 1.3 ∧ (0 : ℚ) ≤ 10.0 ∧ (60 : ℚ) ≥ 40.0 ∧ (30 : ℚ) ≥ 27.0 ∧
    calculateApparentTemp (fun _ _ => 1.6) 10.0 5 50 =
      13.12 + 0.6215 * 10.0 - 11.37 * 1.6 + 0.3965 * 10.0 * 1.6 ∧
    calculateApparentTemp (fun _ _ => 1.6) 0 1.3 50 =
      13.12 + 0.6215 * 0 - 11.37 * 1.6 + 0.3965 * 0 * 1.6 ∧
    calculateApparentTemp (fun _ _ => 1.6) 27.0 1 60 =
      -8.78469475556 + 1.61139411 * 27.0 + 2.33854883889 * 60 + -0.14611605 * 27.0 * 60 +
        -0.012308094 * 27.0 ^ 2 + -0.0164248277778 * 60 ^ 2 + 0.002211732 * 27.0 ^ 2 * 60 +
        0.00072546 * 27.0 * 60 ^ 2 + -0.000003582 * 27.0 ^ 2 * 60 ^ 2 ∧
    calculateApparentTemp (fun _ _ => 1.6) 30 1 40.0 =
      -8.78469475556 + 1.61139411 * 30 + 2.33854883889 * 40.0 + -0.14611605 * 30 * 40.0 +
        -0.012308094 * 30 ^ 2 + -0.0164248277778 * 40.0 ^ 2 + 0.002211732 * 30 ^ 2 * 40.0 +
        0.00072546 * 30 * 40.0 ^ 2 + -0.000003582 * 30 ^ 2 * 40.0 ^ 2 :=
  ⟨by norm_num, by norm_num, by norm_num, by norm_num,
   (calculateApparentTemp_boundaries (fun _ _ => 1.6)).1 5 50 (by norm_num),
   (calculateApparentTemp_boundaries (fun _ _ => 1.6)).2.1 0 50 (by norm_num),
   (calculateApparentTemp_boundaries (fun _ _ => 1.6)).2.2.1 1 60 (by norm_num),
   (calculateApparentTemp_boundaries (fun _ _ => 1.6)).2.2.2 30 1 (by norm_num)⟩

/-! ### The program on an empty or a non-empty series -/

/-- The output of two parts in sequence starts with the output of the first. -/
theorem Run.seq_out (a b : Run) : ∃ rest, (Run.seq a b).out = a.out ++ rest := by
  unfold Run.seq
  cases a.status with
  | done => exact ⟨b.out, rfl⟩
  | exit code => exact ⟨[], by simp⟩
  | panic => exact ⟨[], by simp⟩

/-- On a non-empty series the first print after the banner is the top border
of the panel. -/
theorem main_nonempty_out (pow : ℚ → ℚ → ℚ) (clock dateClock : String → String)
    (e : TimeSeriesEntry) (ts : List TimeSeriesEntry) :
    ∃ rest, (main pow clock dateClock (Except.ok (e :: ts))).out =
      banner ++ panelTop :: rest := by
  obtain ⟨r1, h1⟩ := Run.seq_out (say panelTop)
    (Run.seq (say ("│ " ++ dateClock e.ValidTime ++ " │"))
      (Run.seq
        (match stringsRepeat " " (28 - ((dateClock e.ValidTime).utf8ByteSize : Int)) with
         | some pad => say (pad ++ "│\n")
         | none => ⟨[], Status.panic⟩)
        (Run.seq (panelLines (getParameterValue e.Parameters "t")
            (getParameterValue e.Parameters "ws") (getParameterValue e.Parameters "wd")
            (getParameterValue e.Parameters "r") (getParameterValue e.Parameters "msl")
            (getParameterValue e.Parameters "vis") 0
            (getWeatherIcon (match getParameterValue e.Parameters "Wsymb2" with
              | some w => getWeatherConditionFromSymbol (goInt w)
              | none => "clear_sky")))
          (say panelBottom))))
  obtain ⟨r2, h2⟩ := Run.seq_out (panel dateClock e) (hourlyTable pow clock (e :: ts))
  have hp : (panel dateClock e).out = panelTop :: r1 := by
    unfold panel
    simp only []
    rw [h1]
    rfl
  refine ⟨r1 ++ r2, ?_⟩
  show (Run.seq ⟨banner, Status.done⟩
    (Run.seq (panel dateClock e) (hourlyTable pow clock (e :: ts)))).out = _
  show banner ++ (Run.seq (panel dateClock e) (hourlyTable pow clock (e :: ts))).out = _
  rw [h2, hp]
  simp

/-- C11: on a decoded series with zero instants the program prints its banner
and the message "No forecast data available" and exits with code 1; its
output holds neither the panel nor any line of the hourly table, and this
outcome differs from the outcome of every fetch error and of every non-empty
series. -/
theorem main_empty_series (pow : ℚ → ℚ → ℚ) (clock dateClock : String → String) :
    main pow clock dateClock (Except.ok []) =
      ⟨banner ++ ["No forecast data available\n"], Status.exit 1⟩ ∧
    (main pow clock dateClock (Except.ok [])).status ≠ Status.done ∧
    panelTop ∉ (main pow clock dateClock (Except.ok [])).out ∧
    panelBottom ∉ (main pow clock dateClock (Except.ok [])).out ∧
    (∀ line, line ∈ hourlyHeader → line ∉ (main pow clock dateClock (Except.ok [])).out) ∧
    hourlyBottom ∉ (main pow clock dateClock (Except.ok [])).out ∧
    (∀ s, s ∈ (main pow clock dateClock (Except.ok [])).out → s.data.head? ≠ some '│') ∧
    (∀ err : String,
      main pow clock dateClock (Except.error err) ≠ main pow clock dateClock (Except.ok [])) ∧
    (∀ (e : TimeSeriesEntry) (ts : List TimeSeriesEntry),
      main pow clock dateClock (Except.ok (e :: ts)) ≠
        main pow clock dateClock (Except.ok [])) := by
  have hmain : main pow clock dateClock (Except.ok []) =
      ⟨banner ++ ["No forecast data available\n"], Status.exit 1⟩ := rfl
  refine ⟨hmain, ?_, ?_, ?_, ?_, ?_, ?_, ?_, ?_⟩
  · rw [hmain]; decide
  · rw [hmain]; decide
  · rw [hmain]; decide
  · rw [hmain]; decide
  · rw [hmain]; decide
  · rw [hmain]; decide
  · intro err h
    have herr : main pow clock dateClock (Except.error err) =
        ⟨banner ++ ["Error fetching weather: " ++ err ++ "\n"], Status.exit 1⟩ := rfl
    rw [hmain, herr] at h
    have hout := congrArg Run.out h
    simp only [List.append_cancel_left_eq, List.cons.injEq, and_true] at hout
    have hhead := congrArg (fun x => x.data.head?) hout
    simp [String.data_append] at hhead
  · intro e ts h
    obtain ⟨rest, hrest⟩ := main_nonempty_out pow clock dateClock e ts
    rw [h, hmain] at hrest
    simp only [List.append_cancel_left_eq, List.cons.injEq] at hrest
    exact absurd hrest.1 (by decide)

/-! ### Formatting -/

theorem roundHalfEven_natCast (n : ℕ) : roundHalfEven (n : ℚ) = n := by
  unfold roundHalfEven
  simp

theorem toString_digit_length (d : ℕ) (hd : d < 10) : (toString d).length = 1 := by
  interval_cases d <;> rfl

/-- The verb `%.1f` on a non-negative number of tenths. -/
theorem sprintfFixed_one_tenths (n : ℕ) :
    sprintfFixed 1 ((n : ℚ) / 10) = toString (n / 10) ++ "." ++ toString (n % 10) := by
  have hnn : (0 : ℚ) ≤ (n : ℚ) / 10 := by positivity
  have habs : |(n : ℚ) / 10| * 10 = (n : ℚ) := by
    rw [abs_of_nonneg hnn]
    ring
  unfold sprintfFixed
  simp only [pow_one, habs, roundHalfEven_natCast, not_lt.mpr hnn, if_false]
  rw [toString_digit_length _ (Nat.mod_lt _ (by norm_num))]
  simp [String.append_assoc]

/-- The verb `%.1f` on a negative number of tenths. -/
theorem sprintfFixed_one_neg_tenths (n : ℕ) (hn : 0 < n) :
    sprintfFixed 1 (-((n : ℚ) / 10)) =
      "-" ++ toString (n / 10) ++ "." ++ toString (n % 10) := by
  have hpos : (0 : ℚ) < (n : ℚ) / 10 := by positivity
  have hneg : -((n : ℚ) / 10) < 0 := by linarith
  have habs : |-((n : ℚ) / 10)| * 10 = (n : ℚ) := by
    rw [abs_neg, abs_of_pos hpos]
    ring
  unfold sprintfFixed
  simp only [pow_one, habs, roundHalfEven_natCast, hneg, if_true]
  rw [toString_digit_length _ (Nat.mod_lt _ (by norm_num))]
  simp [String.append_assoc]

/-- The verb `%.0f` on a natural number. -/
theorem sprintfFixed_zero_natCast (n : ℕ) : sprintfFixed 0 (n : ℚ) = toString n := by
  have hnn : (0 : ℚ) ≤ (n : ℚ) := by positivity
  unfold sprintfFixed
  simp [abs_of_nonneg hnn, roundHalfEven_natCast, not_lt.mpr hnn]

theorem sprintfFixed_one_5 : sprintfFixed 1 5 = "5.0" := by
  have h : (5 : ℚ) = ((50 : ℕ) : ℚ) / 10 := by norm_num
  rw [h, sprintfFixed_one_tenths]
  rfl

theorem sprintfFixed_one_3 : sprintfFixed 1 3 = "3.0" := by
  have h : (3 : ℚ) = ((30 : ℕ) : ℚ) / 10 := by norm_num
  rw [h, sprintfFixed_one_tenths]
  rfl

theorem sprintfFixed_one_10 : sprintfFixed 1 10 = "10.0" := by
  have h : (10 : ℚ) = ((100 : ℕ) : ℚ) / 10 := by norm_num
  rw [h, sprintfFixed_one_tenths]
  rfl

theorem sprintfFixed_one_neg_10_5 : sprintfFixed 1 (-10.5) = "-10.5" := by
  have h : (-10.5 : ℚ) = -(((105 : ℕ) : ℚ) / 10) := by norm_num
  rw [h, sprintfFixed_one_neg_tenths _ (by norm_num)]
  rfl

theorem sprintfFixed_zero_80 : sprintfFixed 0 80 = "80" := by
  have h : (80 : ℚ) = ((80 : ℕ) : ℚ) := by norm_num
  rw [h, sprintfFixed_zero_natCast]
  rfl

theorem sprintfFixed_zero_1012 : sprintfFixed 0 1012 = "1012" := by
  have h : (1012 : ℚ) = ((1012 : ℕ) : ℚ) := by norm_num
  rw [h, sprintfFixed_zero_natCast]
  rfl

/-- The length of a padded text is the larger of the width and its length:
the verb `%*s` pads and never truncates. -/
theorem padLeft_length (w : Nat) (s : String) : (padLeft w s).length = max w s.length := by
  unfold padLeft
  rw [String.length_append]
  have h : (String.mk (List.replicate (w - s.length) ' ')).length = w - s.length := by
    show (List.replicate (w - s.length) ' ').length = w - s.length
    exact List.length_replicate _ _
  rw [h]
  omega

/-- Two texts differ when a character of one does not occur in the other. -/
theorem ne_of_mem_data {s t : String} (c : Char) (h1 : c ∈ s.data) (h2 : c ∉ t.data) :
    s ≠ t := by
  intro h
  rw [h] at h1
  exact h2 h1

/-- The compass label of the bearing 270 is W. -/
theorem getWindDirection_270 : getWindDirection 270 = some "W" := by
  rw [getWindDirection_of_sector 12 (by decide) (by norm_num) (by norm_num)]
  rfl

/-! ### Current-conditions panel -/

theorem panelTempStr_5 : panelTempStr 5 = "5.0°C" := by
  unfold panelTempStr
  rw [sprintfFixed_one_5]
  rfl

theorem panelWindStr_3_270 : panelWindStr 3 270 = some "3.0 m/s W" := by
  unfold panelWindStr
  rw [getWindDirection_270, sprintfFixed_one_3]
  rfl

theorem panelTempLine_5 :
    panelTempLine (some 5) =
      ⟨["│ Temperature:  5.0°C", "        │\n"], Status.done⟩ := by
  unfold panelTempLine
  simp only [panelTempStr_5]
  rfl

theorem panelWindLine_3_270 :
    panelWindLine (some 3) (some 270) =
      ⟨["│ Wind:         3.0 m/s W", "     │\n"], Status.done⟩ := by
  unfold panelWindLine
  simp only [panelWindStr_3_270]
  rfl

theorem panelHumLine_80 :
    panelHumLine (some 80) = ⟨["│ Humidity:     80%", "           │\n"], Status.done⟩ := by
  unfold panelHumLine panelHumStr
  simp only [sprintfFixed_zero_80]
  rfl

theorem panelPresLine_1012 :
    panelPresLine (some 1012) =
      ⟨["│ Pressure:     1012 hPa", "      │\n"], Status.done⟩ := by
  unfold panelPresLine panelPresStr
  simp only [sprintfFixed_zero_1012]
  rfl

theorem panelVisLine_10 :
    panelVisLine (some 10) =
      ⟨["│ Visibility:   10.0 km", "       │\n"], Status.done⟩ := by
  unfold panelVisLine panelVisStr
  simp only [sprintfFixed_one_10]
  rfl

theorem goInt_8 : goInt 8 = 8 := by
  rw [goInt_of_nonneg (by norm_num)]
  exact Int.floor_ofNat 8

/-- The lookups on the parameters of the end-to-end example. -/
theorem exampleParameters_lookup :
    getParameterValue exampleParameters "t" = some 5 ∧
    getParameterValue exampleParameters "ws" = some 3 ∧
    getParameterValue exampleParameters "wd" = some 270 ∧
    getParameterValue exampleParameters "r" = some 80 ∧
    getParameterValue exampleParameters "msl" = some 1012 ∧
    getParameterValue exampleParameters "vis" = some 10 ∧
    getParameterValue exampleParameters "Wsymb2" = some 8 := by
  refine ⟨?_, ?_, ?_, ?_, ?_, ?_, ?_⟩ <;>
    simp [getParameterValue, exampleParameters] <;> norm_num

/-- C17: for the single instant with t=5.0, ws=3.0, wd=270, r=80, msl=1012,
vis=10, Wsymb2=8 the lookup finds each value, the condition is rain_showers,
the compass label is W, the temperature text of the panel is `5.0°C` and its
wind text is `3.0 m/s W`; the five metric lines of the panel are printed as
listed, next to the icon of rain_showers. -/
theorem end_to_end_example :
    getParameterValue exampleParameters "t" = some 5.0 ∧
    getParameterValue exampleParameters "ws" = some 3.0 ∧
    getParameterValue exampleParameters "wd" = some 270 ∧
    getParameterValue exampleParameters "r" = some 80 ∧
    getParameterValue exampleParameters "msl" = some 1012 ∧
    getParameterValue exampleParameters "vis" = some 10 ∧
    getParameterValue exampleParameters "Wsymb2" = some 8 ∧
    conditionOf (getParameterValue exampleParameters "Wsymb2") = "rain_showers" ∧
    (getParameterValue exampleParameters "wd").bind getWindDirection = some "W" ∧
    (getParameterValue exampleParameters "t").map panelTempStr = some "5.0°C" ∧
    ((getParameterValue exampleParameters "ws").bind fun ws =>
      (getParameterValue exampleParameters "wd").bind fun wd => panelWindStr ws wd) =
      some "3.0 m/s W" ∧
    panelLines (getParameterValue exampleParameters "t")
        (getParameterValue exampleParameters "ws") (getParameterValue exampleParameters "wd")
        (getParameterValue exampleParameters "r") (getParameterValue exampleParameters "msl")
        (getParameterValue exampleParameters "vis") 0
        (getWeatherIcon (conditionOf (getParameterValue exampleParameters "Wsymb2"))) =
      ⟨["│     .-.     ", "│ Temperature:  5.0°C", "        │\n",
        "│    (   ).   ", "│ Wind:         3.0 m/s W", "     │\n",
        "│   (___(__)  ", "│ Humidity:     80%", "           │\n",
        "│    ' ' ' '  ", "│ Pressure:     1012 hPa", "      │\n",
        "│   ' ' ' '   ", "│ Visibility:   10.0 km", "       │\n"], Status.done⟩ := by
  obtain ⟨ht, hws, hwd, hr, hmsl, hvis, hsym⟩ := exampleParameters_lookup
  have hcond : conditionOf (getParameterValue exampleParameters "Wsymb2") = "rain_showers" := by
    rw [hsym]
    unfold conditionOf
    simp only [goInt_8]
    rfl
  refine ⟨by rw [ht]; norm_num, by rw [hws]; norm_num, hwd, hr, hmsl, hvis, hsym, hcond,
    ?_, ?_, ?_, ?_⟩
  · rw [hwd]
    exact getWindDirection_270
  · rw [ht]
    simp only [Option.map_some', panelTempStr_5]
  · rw [hws, hwd]
    exact panelWindStr_3_270
  · rw [ht, hws, hwd, hr, hmsl, hvis, hcond]
    have hicon : getWeatherIcon "rain_showers" =
        ["     .-.     ", "    (   ).   ", "   (___(__)  ", "    ' ' ' '  ",
         "   ' ' ' '   "] := rfl
    rw [hicon]
    simp only [panelLines, panelLine, panelTempLine_5, panelWindLine_3_270, panelHumLine_80,
      panelPresLine_1012, panelVisLine_10]
    rfl

/-- C13 (the code at the failing input): for the temperature 5.0 the value
text `5.0°C` has 5 characters but 6 bytes, the padding is `14 - 6 = 8`
spaces, and the value with its padding fills 13 columns, one less than the 14
columns of the absent rendering (`N/A` and 11 spaces); the printed line is one
character shorter than the line of an absent temperature. -/
theorem panelTempLine_misaligned :
    panelTempStr 5 = "5.0°C" ∧
    (panelTempStr 5).length = 5 ∧ (panelTempStr 5).utf8ByteSize = 6 ∧
    panelTempLine (some 5) =
      ⟨["│ Temperature:  " ++ "5.0°C", "        " ++ "│\n"], Status.done⟩ ∧
    ("5.0°C" ++ "        ").length = 13 ∧
    panelTempLine none = say ("│ Temperature:  " ++ "N/A           " ++ "│\n") ∧
    ("N/A           ").length = 14 ∧
    (String.join (panelTempLine (some 5)).out).length + 1 =
      (String.join (panelTempLine none).out).length := by
  refine ⟨panelTempStr_5, ?_, ?_, ?_, by decide, rfl, by decide, ?_⟩
  · rw [panelTempStr_5]; decide
  · rw [panelTempStr_5]; decide
  · rw [panelTempLine_5]; rfl
  · rw [panelTempLine_5]; decide

/-! ### Hourly cells -/

/-- The row is the final `Printf` applied to the cell texts, each of which is
computed from the lookups of its own source parameters only; the row is
missing exactly when the wind text is (a panic in `getWindDirection`). -/
theorem hourlyRow_eq (pow : ℚ → ℚ → ℚ) (clock : String → String) (e : TimeSeriesEntry) :
    hourlyRow pow clock e =
      (hourlyWindStr (getParameterValue e.Parameters "ws")
        (getParameterValue e.Parameters "wd")).map fun windStr =>
        hourlyRowText (clock e.ValidTime)
          (hourlyTempStr (getParameterValue e.Parameters "t"))
          (hourlyFeelsLikeStr pow (getParameterValue e.Parameters "t")
            (getParameterValue e.Parameters "ws") (getParameterValue e.Parameters "r"))
          windStr
          (hourlyRainStr (getParameterValue e.Parameters "pmean"))
          (hourlyHumidityStr (getParameterValue e.Parameters "r"))
          (hourlyPressureStr (getParameterValue e.Parameters "msl"))
          (hourlyVisStr (getParameterValue e.Parameters "vis"))
          (condText (conditionOf (getParameterValue e.Parameters "Wsymb2"))) := by
  unfold hourlyRow hourlyWindStr
  cases getParameterValue e.Parameters "ws" with
  | none => rfl
  | some w =>
    cases getParameterValue e.Parameters "wd" with
    | none => rfl
    | some d =>
      simp only []
      cases h : getWindDirection d with
      | none => rfl
      | some dir => rfl

theorem hourlyTempStr_neg_10_5 : hourlyTempStr (some (-10.5)) = "-10.5°" := by
  unfold hourlyTempStr
  simp only [sprintfFixed_one_neg_10_5]
  rfl

/-- With every numeric cell at its width, a row is still one column wider
than the header line: the header gives the Condition column 17 columns where
the row prints an 18-column label. -/
theorem hourlyRowText_wider_than_header :
    displayWidth (hourlyRowText "12:00" "N/A" "N/A" "N/A" "N/A" "N/A" "N/A" "N/A"
      (condText "clear_sky")) = 109 ∧
    hourlyHeader.map displayWidth = [109, 108, 108] ∧ displayWidth hourlyBottom = 108 := by
  decide

/-- C14 (the code at the failing input): for the temperature -10.5 the Temp
text is `-10.5°`, six characters; the verb `%*s` with width 5 leaves it as it
is, so the Temp cell is 6 characters wide, not 5, and the row is one character
longer than the row of an instant with no parameters. -/
theorem hourlyTemp_cell_overflows :
    hourlyTempStr (some (-10.5)) = "-10.5°" ∧ tempWidth = 5 ∧
    padLeft tempWidth (hourlyTempStr (some (-10.5))) = "-10.5°" ∧
    (padLeft tempWidth (hourlyTempStr (some (-10.5)))).length = 6 ∧
    (∀ (pow : ℚ → ℚ → ℚ) (vt : String),
      hourlyRow pow (fun _ => "12:00") ⟨vt, [⟨"t", [-10.5]⟩]⟩ =
        some (hourlyRowText "12:00" "-10.5°" "N/A" "N/A" "N/A" "N/A" "N/A" "N/A"
          (condText "clear_sky")) ∧
      hourlyRow pow (fun _ => "12:00") ⟨vt, []⟩ =
        some (hourlyRowText "12:00" "N/A" "N/A" "N/A" "N/A" "N/A" "N/A" "N/A"
          (condText "clear_sky"))) ∧
    (hourlyRowText "12:00" "-10.5°" "N/A" "N/A" "N/A" "N/A" "N/A" "N/A"
      (condText "clear_sky")).length =
    (hourlyRowText "12:00" "N/A" "N/A" "N/A" "N/A" "N/A" "N/A" "N/A"
      (condText "clear_sky")).length + 1 := by
  refine ⟨hourlyTempStr_neg_10_5, rfl, ?_, ?_, ?_, by decide⟩
  · rw [hourlyTempStr_neg_10_5]; decide
  · rw [hourlyTempStr_neg_10_5]; decide
  · intro pow vt
    have hlook : getParameterValue [⟨"t", [-10.5]⟩] "t" = some (-10.5) := by
      simp [getParameterValue]
    constructor
    · rw [hourlyRow_eq]
      simp only [hlook, hourlyTempStr_neg_10_5]
      rfl
    · rw [hourlyRow_eq]
      rfl

/-- A text that ends in a unit suffix holding the character `c` is not the
text `N/A` when `c` does not occur in `N/A`. -/
theorem append_ne_NA (s suffix : String) (c : Char) (h1 : c ∈ suffix.data)
    (h2 : c ∉ ("N/A" : String).data) : s ++ suffix ≠ "N/A" := by
  apply ne_of_mem_data c _ h2
  rw [String.data_append]
  exact List.mem_append_right _ h1

/-- C12: an hourly row is the final `Printf` applied to the cell texts, and
each cell text is computed from the lookups of its own source parameters
only. The Temp, Rain, Humidity, Pressure and Visibility texts are `N/A`
exactly when t, pmean, r, msl, vis respectively is absent, and the Feels-like
text is `N/A` exactly when at least one of t, ws, r is absent. A row is
rendered exactly when its wind text is, and the wind text exists whenever ws
or wd is absent: the absence of a parameter never prevents the row. -/
theorem hourly_cells_absent :
    (∀ (pow : ℚ → ℚ → ℚ) (clock : String → String) (e : TimeSeriesEntry),
      hourlyRow pow clock e =
        (hourlyWindStr (getParameterValue e.Parameters "ws")
          (getParameterValue e.Parameters "wd")).map fun windStr =>
          hourlyRowText (clock e.ValidTime)
            (hourlyTempStr (getParameterValue e.Parameters "t"))
            (hourlyFeelsLikeStr pow (getParameterValue e.Parameters "t")
              (getParameterValue e.Parameters "ws") (getParameterValue e.Parameters "r"))
            windStr
            (hourlyRainStr (getParameterValue e.Parameters "pmean"))
            (hourlyHumidityStr (getParameterValue e.Parameters "r"))
            (hourlyPressureStr (getParameterValue e.Parameters "msl"))
            (hourlyVisStr (getParameterValue e.Parameters "vis"))
            (condText (conditionOf (getParameterValue e.Parameters "Wsymb2")))) ∧
    (∀ temp : Option ℚ, hourlyTempStr temp = "N/A" ↔ temp = none) ∧
    (∀ rain : Option ℚ, hourlyRainStr rain = "N/A" ↔ rain = none) ∧
    (∀ humidity : Option ℚ, hourlyHumidityStr humidity = "N/A" ↔ humidity = none) ∧
    (∀ pressure : Option ℚ, hourlyPressureStr pressure = "N/A" ↔ pressure = none) ∧
    (∀ vis : Option ℚ, hourlyVisStr vis = "N/A" ↔ vis = none) ∧
    (∀ (pow : ℚ → ℚ → ℚ) (temp wind humidity : Option ℚ),
      hourlyFeelsLikeStr pow temp wind humidity = "N/A" ↔
        (temp = none ∨ wind = none ∨ humidity = none)) ∧
    (∀ (pow : ℚ → ℚ → ℚ) (clock : String → String) (e : TimeSeriesEntry),
      (hourlyRow pow clock e).isSome =
        (hourlyWindStr (getParameterValue e.Parameters "ws")
          (getParameterValue e.Parameters "wd")).isSome) ∧
    (∀ windDir : Option ℚ, hourlyWindStr none windDir = some "N/A") ∧
    (∀ w : ℚ, hourlyWindStr (some w) none = some (sprintfFixed 1 w ++ "m/s")) := by
  refine ⟨hourlyRow_eq, ?_, ?_, ?_, ?_, ?_, ?_, ?_, ?_, ?_⟩
  · intro temp
    cases temp with
    | none => simp [hourlyTempStr]
    | some t =>
      simp only [hourlyTempStr, reduceCtorEq, iff_false]
      exact append_ne_NA _ _ '°' (by decide) (by decide)
  · intro rain
    cases rain with
    | none => simp [hourlyRainStr]
    | some t =>
      simp only [hourlyRainStr, reduceCtorEq, iff_false]
      exact append_ne_NA _ _ 'm' (by decide) (by decide)
  · intro humidity
    cases humidity with
    | none => simp [hourlyHumidityStr]
    | some t =>
      simp only [hourlyHumidityStr, reduceCtorEq, iff_false]
      exact append_ne_NA _ _ '%' (by decide) (by decide)
  · intro pressure
    cases pressure with
    | none => simp [hourlyPressureStr]
    | some t =>
      simp only [hourlyPressureStr, reduceCtorEq, iff_false]
      exact append_ne_NA _ _ 'h' (by decide) (by decide)
  · intro vis
    cases vis with
    | none => simp [hourlyVisStr]
    | some t =>
      simp only [hourlyVisStr, reduceCtorEq, iff_false]
      exact append_ne_NA _ _ 'k' (by decide) (by decide)
  · intro pow temp wind humidity
    cases temp with
    | none => simp [hourlyFeelsLikeStr]
    | some t =>
      cases wind with
      | none => simp [hourlyFeelsLikeStr]
      | some w =>
        cases humidity with
        | none => simp [hourlyFeelsLikeStr]
        | some h =>
          simp only [hourlyFeelsLikeStr, reduceCtorEq, or_self, iff_false]
          exact append_ne_NA _ _ '°' (by decide) (by decide)
  · intro pow clock e
    rw [hourlyRow_eq]
    simp
  · intro windDir
    rfl
  · intro w
    rfl

/-! ### Wind metric: panel against hourly row -/

/-- The text of the wind line of the panel when the wind is absent. -/
theorem panelWindLine_absent (ws wd : Option ℚ) (h : ws = none ∨ wd = none) :
    panelWindLine ws wd = say "│ Wind:         N/A           │\n" := by
  unfold panelWindLine
  rcases h with h | h
  · subst h
    rfl
  · subst h
    cases ws <;> rfl

/-- The wind line of the panel when both parameters are present. -/
theorem panelWindLine_some (w d : ℚ) :
    panelWindLine (some w) (some d) =
      (panelWindStr w d).elim ⟨[], Status.panic⟩ (panelValue "│ Wind:         ") := by
  unfold panelWindLine
  simp only []
  cases h : panelWindStr w d <;> rfl

/-- The output of a present metric starts with the label and the value. -/
theorem panelValue_out (label str : String) :
    ∃ rest, (panelValue label str).out = (label ++ str) :: rest := by
  obtain ⟨rest, h⟩ := Run.seq_out (say (label ++ str))
    (match stringsRepeat " " (14 - (str.utf8ByteSize : Int)) with
     | some pad => say (pad ++ "│\n")
     | none => ⟨[], Status.panic⟩)
  exact ⟨rest, h⟩

/-- A character of one of the joined texts occurs in the joined text. -/
theorem mem_join_data (c : Char) (l : List String) (s : String) (hs : s ∈ l)
    (hc : c ∈ s.data) : c ∈ (String.join l).data := by
  have key : ∀ (l : List String) (acc : String),
      (c ∈ acc.data ∨ ∃ s, s ∈ l ∧ c ∈ s.data) →
      c ∈ (List.foldl (fun r s => r ++ s) acc l).data := by
    intro l
    induction l with
    | nil =>
      intro acc h
      rcases h with h | ⟨s, hs, -⟩
      · exact h
      · simp at hs
    | cons x xs ih =>
      intro acc h
      rw [List.foldl_cons]
      apply ih
      rcases h with h | ⟨s, hs, hc⟩
      · left
        rw [String.data_append]
        exact List.mem_append_left _ h
      · rcases List.mem_cons.mp hs with rfl | hs
        · left
          rw [String.data_append]
          exact List.mem_append_right _ hc
        · right
          exact ⟨s, hs, hc⟩
  exact key l "" (Or.inr ⟨s, hs, hc⟩)

/-- With a wind speed and a bearing the printed wind line is not the `N/A`
line: it is empty (a panic) or holds the unit `m/s`. -/
theorem panelWindLine_present (w d : ℚ) :
    String.join (panelWindLine (some w) (some d)).out ≠
      "│ Wind:         N/A           │\n" := by
  rw [panelWindLine_some]
  cases hstr : panelWindStr w d with
  | none =>
    show String.join [] ≠ _
    decide
  | some str =>
    show String.join (panelValue "│ Wind:         " str).out ≠ _
    have hm : 'm' ∈ str.data := by
      unfold panelWindStr at hstr
      cases hdir : getWindDirection d with
      | none => simp [hdir] at hstr
      | some dir =>
        simp only [hdir, Option.some.injEq] at hstr
        rw [← hstr]
        simp [String.data_append]
    obtain ⟨rest, hout⟩ := panelValue_out "│ Wind:         " str
    apply ne_of_mem_data 'm' _ (by decide)
    rw [hout]
    apply mem_join_data 'm' _ ("│ Wind:         " ++ str) (by simp)
    rw [String.data_append]
    exact List.mem_append_right _ hm

/-- With a wind speed the hourly wind text is not `N/A`. -/
theorem hourlyWindStr_some_ne_NA (w : ℚ) (wd : Option ℚ) :
    hourlyWindStr (some w) wd ≠ some "N/A" := by
  cases wd with
  | none =>
    show some (sprintfFixed 1 w ++ "m/s") ≠ some "N/A"
    intro h
    exact append_ne_NA _ _ 'm' (by decide) (by decide) (Option.some.inj h)
  | some d =>
    have hdef : hourlyWindStr (some w) (some d) =
        (getWindDirection d).map (fun dir => sprintfFixed 1 w ++ "m/s " ++ dir) := by
      unfold hourlyWindStr
      simp only []
      cases h : getWindDirection d <;> rfl
    rw [hdef]
    cases getWindDirection d with
    | none =>
      intro h
      exact Option.noConfusion h
    | some dir =>
      show some (sprintfFixed 1 w ++ "m/s " ++ dir) ≠ some "N/A"
      intro h
      have h2 := Option.some.inj h
      revert h2
      apply ne_of_mem_data 'm' _ (by decide)
      simp [String.data_append]

/-- The hourly wind text is `N/A` exactly when the wind speed is absent. -/
theorem hourlyWindStr_eq_NA_iff (ws wd : Option ℚ) :
    hourlyWindStr ws wd = some "N/A" ↔ ws = none := by
  cases ws with
  | none => exact ⟨fun _ => rfl, fun _ => rfl⟩
  | some w =>
    constructor
    · intro h
      exact absurd h (hourlyWindStr_some_ne_NA w wd)
    · intro h
      exact Option.noConfusion h

/-- C20 (counterexample): for an instant with the wind speed 3 and no
bearing, the wind line of the panel is the `N/A` line while the wind cell of
the hourly row is `3.0m/s`, so the two do not agree on absence. -/
theorem wind_absence_disagrees :
    panelWindLine (getParameterValue [⟨"ws", [3]⟩] "ws")
        (getParameterValue [⟨"ws", [3]⟩] "wd") =
      say "│ Wind:         N/A           │\n" ∧
    hourlyWindStr (getParameterValue [⟨"ws", [3]⟩] "ws")
        (getParameterValue [⟨"ws", [3]⟩] "wd") = some "3.0m/s" ∧
    ¬ (String.join (panelWindLine (getParameterValue [⟨"ws", [3]⟩] "ws")
          (getParameterValue [⟨"ws", [3]⟩] "wd")).out =
        "│ Wind:         N/A           │\n" ↔
      hourlyWindStr (getParameterValue [⟨"ws", [3]⟩] "ws")
        (getParameterValue [⟨"ws", [3]⟩] "wd") = some "N/A") := by
  have hws : getParameterValue [⟨"ws", [3]⟩] "ws" = some 3 := by simp [getParameterValue]
  have hwd : getParameterValue [⟨"ws", [3]⟩] "wd" = none := by simp [getParameterValue]
  have hhour : hourlyWindStr (some 3) none = some "3.0m/s" := by
    unfold hourlyWindStr
    simp only [sprintfFixed_one_3]
    rfl
  rw [hws, hwd, hhour]
  refine ⟨rfl, rfl, ?_⟩
  intro h
  have h1 : String.join (panelWindLine (some 3) none).out =
      "│ Wind:         N/A           │\n" := by decide
  exact absurd (h.mp h1) (by decide)

/-- C20 (amended): the wind line of the panel is the `N/A` line exactly when
ws or wd is absent, whereas the wind cell of the hourly row is `N/A` exactly
when ws is absent (with ws present and wd absent the row shows the speed
alone); so panel and row agree on the absence of the wind unless ws is
present and wd is absent. -/
theorem wind_absence (ws wd : Option ℚ) :
    (String.join (panelWindLine ws wd).out = "│ Wind:         N/A           │\n" ↔
      (ws = none ∨ wd = none)) ∧
    (hourlyWindStr ws wd = some "N/A" ↔ ws = none) ∧
    (∀ w : ℚ, hourlyWindStr (some w) none = some (sprintfFixed 1 w ++ "m/s")) ∧
    (¬ (ws ≠ none ∧ wd = none) →
      (String.join (panelWindLine ws wd).out = "│ Wind:         N/A           │\n" ↔
        hourlyWindStr ws wd = some "N/A")) := by
  have hpanel : String.join (panelWindLine ws wd).out = "│ Wind:         N/A           │\n" ↔
      (ws = none ∨ wd = none) := by
    constructor
    · intro h
      cases ws with
      | none => exact Or.inl rfl
      | some w =>
        cases wd with
        | none => exact Or.inr rfl
        | some d => exact absurd h (panelWindLine_present w d)
    · intro h
      rw [panelWindLine_absent ws wd h]
      decide
  refine ⟨hpanel, hourlyWindStr_eq_NA_iff ws wd, fun w => rfl, ?_⟩
  intro hno
  rw [hpanel, hourlyWindStr_eq_NA_iff]
  constructor
  · rintro (h | h)
    · exact h
    · by_contra hws
      exact hno ⟨hws, h⟩
  · intro h
    exact Or.inl h

/-- C20 (witness): an instant with neither wind speed nor bearing shows `N/A`
in both places. -/
theorem wind_absence_witness :
    ¬ ((none : Option ℚ) ≠ none ∧ (none : Option ℚ) = none) ∧
    (String.join (panelWindLine none none).out = "│ Wind:         N/A           │\n" ↔
      hourlyWindStr none none = some "N/A") :=
  ⟨by simp, (wind_absence none none).2.2.2 (by simp)⟩

/-! ### Compass direction in binary64 arithmetic -/

/-- Rounding to the nearest natural number moves a non-negative value by at
most one half. -/
theorem roundHalfEven_error (q : ℚ) (hq : 0 ≤ q) :
    |(roundHalfEven q : ℚ) - q| ≤ 1 / 2 := by
  have hf0 : 0 ≤ ⌊q⌋ := Int.floor_nonneg.mpr hq
  have hcast : ((⌊q⌋.toNat : ℕ) : ℚ) = ((⌊q⌋ : ℤ) : ℚ) := by
    have : ((⌊q⌋.toNat : ℕ) : ℤ) = ⌊q⌋ := Int.toNat_of_nonneg hf0
    exact_mod_cast this
  have h1 : ((⌊q⌋ : ℤ) : ℚ) ≤ q := Int.floor_le q
  have h2 : q < ((⌊q⌋ : ℤ) : ℚ) + 1 := Int.lt_floor_add_one q
  unfold roundHalfEven
  simp only []
  rw [hcast]
  split_ifs with ha hb hc
  · rw [hcast, abs_le]; constructor <;> linarith
  · push_cast; rw [hcast, abs_le]; constructor <;> linarith
  · rw [hcast, abs_le]; constructor <;> linarith
  · push_cast; rw [hcast, abs_le]; constructor <;> linarith

/-- Rounding to binary64 moves a positive value by at most the fraction
`2 ^ -53` of it, and keeps it non-negative. -/
theorem roundF64_error (x : ℚ) (hx : 0 < x) :
    |roundF64 x - x| ≤ x / 2 ^ 53 ∧ 0 ≤ roundF64 x := by
  have hne : x ≠ 0 := ne_of_gt hx
  have habs : |x| = x := abs_of_pos hx
  have hlog : (2 : ℚ) ^ Int.log 2 x ≤ x := by
    have := Int.zpow_log_le_self (R := ℚ) (b := 2) (by norm_num) hx
    simpa using this
  have hulp : (0 : ℚ) < 2 ^ (Int.log 2 x - 52) := by positivity
  have hulp_eq : (2 : ℚ) ^ (Int.log 2 x - 52) = 2 ^ Int.log 2 x / 2 ^ 52 := by
    rw [zpow_sub₀ (by norm_num)]
    norm_num
  have hr := roundHalfEven_error (x / 2 ^ (Int.log 2 x - 52)) (by positivity)
  have hval : roundF64 x =
      (roundHalfEven (x / 2 ^ (Int.log 2 x - 52)) : ℚ) * 2 ^ (Int.log 2 x - 52) := by
    unfold roundF64
    simp only [hne, if_false, habs, not_lt.mpr (le_of_lt hx), one_mul]
  constructor
  · rw [hval]
    have hrew : (roundHalfEven (x / 2 ^ (Int.log 2 x - 52)) : ℚ) * 2 ^ (Int.log 2 x - 52) - x =
        ((roundHalfEven (x / 2 ^ (Int.log 2 x - 52)) : ℚ) - x / 2 ^ (Int.log 2 x - 52)) *
          2 ^ (Int.log 2 x - 52) := by
      field_simp
    rw [hrew, abs_mul, abs_of_pos hulp]
    calc |(roundHalfEven (x / 2 ^ (Int.log 2 x - 52)) : ℚ) - x / 2 ^ (Int.log 2 x - 52)| *
          2 ^ (Int.log 2 x - 52)
        ≤ 1 / 2 * 2 ^ (Int.log 2 x - 52) := by
          exact mul_le_mul_of_nonneg_right hr (le_of_lt hulp)
      _ = 2 ^ Int.log 2 x / 2 ^ 53 := by rw [hulp_eq]; ring
      _ ≤ x / 2 ^ 53 := by
          apply div_le_div_of_nonneg_right hlog (by positivity)
  · rw [hval]
    positivity


/-- A value `m * 2 ^ j` with `m < 2 ^ 53` is a binary64 value: rounding leaves
it unchanged. -/
theorem roundF64_dyadic (m : ℕ) (j : ℤ) (hm : m < 2 ^ 53) :
    roundF64 ((m : ℚ) * 2 ^ j) = (m : ℚ) * 2 ^ j := by
  rcases Nat.eq_zero_or_pos m with h0 | hpos
  · subst h0
    simp [roundF64]
  have hmq : (0 : ℚ) < (m : ℚ) := by exact_mod_cast hpos
  have h2j : (0 : ℚ) < 2 ^ j := by positivity
  have hx : (0 : ℚ) < (m : ℚ) * 2 ^ j := by positivity
  have hne : (m : ℚ) * 2 ^ j ≠ 0 := ne_of_gt hx
  have habs : |(m : ℚ) * 2 ^ j| = (m : ℚ) * 2 ^ j := abs_of_pos hx
  have hlog : (2 : ℚ) ^ Int.log 2 ((m : ℚ) * 2 ^ j) ≤ (m : ℚ) * 2 ^ j := by
    have := Int.zpow_log_le_self (R := ℚ) (b := 2) (by norm_num) hx
    simpa using this
  have hmlt : (m : ℚ) < 2 ^ (53 : ℤ) := by
    calc (m : ℚ) < (2 : ℚ) ^ (53 : ℕ) := by exact_mod_cast hm
      _ = 2 ^ (53 : ℤ) := by norm_num
  have hlt : (2 : ℚ) ^ Int.log 2 ((m : ℚ) * 2 ^ j) < 2 ^ (53 + j) := by
    rw [zpow_add₀ (by norm_num)]
    calc (2 : ℚ) ^ Int.log 2 ((m : ℚ) * 2 ^ j) ≤ (m : ℚ) * 2 ^ j := hlog
      _ < 2 ^ (53 : ℤ) * 2 ^ j := by
          exact mul_lt_mul_of_pos_right hmlt h2j
  have he : Int.log 2 ((m : ℚ) * 2 ^ j) < 53 + j := (zpow_lt_zpow_iff_right₀ (by norm_num)).mp hlt
  obtain ⟨t, ht⟩ : ∃ t : ℕ, (t : ℤ) = j - (Int.log 2 ((m : ℚ) * 2 ^ j) - 52) :=
    ⟨(j - (Int.log 2 ((m : ℚ) * 2 ^ j) - 52)).toNat, Int.toNat_of_nonneg (by omega)⟩
  have hdiv : (m : ℚ) * 2 ^ j / 2 ^ (Int.log 2 ((m : ℚ) * 2 ^ j) - 52) =
      ((m * 2 ^ t : ℕ) : ℚ) := by
    rw [mul_div_assoc, ← zpow_sub₀ (by norm_num), ← ht, zpow_natCast]
    push_cast
    ring
  unfold roundF64
  simp only [hne, if_false, habs, not_lt.mpr (le_of_lt hx), one_mul, hdiv,
    roundHalfEven_natCast]
  rw [← hdiv]
  field_simp

/-- The binary exponent of a positive value between two powers of two. -/
theorem log2_eq (x : ℚ) (e : ℤ) (h1 : (2 : ℚ) ^ e ≤ x) (h2 : x < 2 ^ (e + 1)) :
    Int.log 2 x = e := by
  have hx : 0 < x := lt_of_lt_of_le (by positivity) h1
  have ha : e ≤ Int.log 2 x := by
    have := (Int.zpow_le_iff_le_log (R := ℚ) (b := 2) (by norm_num) hx (x := e)).mp
      (by simpa using h1)
    exact this
  have hb : Int.log 2 x < e + 1 := by
    have := (Int.lt_zpow_iff_log_lt (R := ℚ) (b := 2) (by norm_num) hx (x := e + 1)).mp
      (by simpa using h2)
    exact this
  omega


/-- For a bearing from -11.25 upwards whose sum with 11.25 is at most `S`, and
which is a sector boundary or keeps the distance `S / 2 ^ 50` from every
sector boundary `22.5 k - 11.25`, the index computed in binary64 is the
exact one. -/
theorem windIndexF64_eq (b S : ℚ) (hb : -45 / 4 ≤ b) (hS : b + 45 / 4 ≤ S) (hS2 : S ≤ 2 ^ 40)
    (hgap : ∀ k : ℤ, b = 45 / 2 * k - 45 / 4 ∨ S / 2 ^ 50 ≤ |b - (45 / 2 * k - 45 / 4)|) :
    windIndexF64 b = ⌊(b + 45 / 4) / (45 / 2)⌋ := by
  have e1 : (11.25 : ℚ) = 45 / 4 := by norm_num
  have e2 : (22.5 : ℚ) = 45 / 2 := by norm_num
  have hs0 : (0 : ℚ) ≤ b + 45 / 4 := by linarith
  have hq0 : (0 : ℚ) ≤ (b + 45 / 4) / (45 / 2) := div_nonneg hs0 (by norm_num)
  have hn0 : 0 ≤ ⌊(b + 45 / 4) / (45 / 2)⌋ := Int.floor_nonneg.mpr hq0
  have hn1 : ((⌊(b + 45 / 4) / (45 / 2)⌋ : ℤ) : ℚ) * (45 / 2) ≤ b + 45 / 4 := by
    have := Int.floor_le ((b + 45 / 4) / (45 / 2))
    rwa [le_div_iff₀ (by norm_num)] at this
  have hn2 : b + 45 / 4 < (((⌊(b + 45 / 4) / (45 / 2)⌋ : ℤ) : ℚ) + 1) * (45 / 2) := by
    have := Int.lt_floor_add_one ((b + 45 / 4) / (45 / 2))
    rwa [div_lt_iff₀ (by norm_num)] at this
  generalize ⌊(b + 45 / 4) / (45 / 2)⌋ = n at hn0 hn1 hn2 ⊢
  have hnq : (0 : ℚ) ≤ (n : ℚ) := by exact_mod_cast hn0
  unfold windIndexF64
  rw [e1, e2]
  by_cases hA : b = 45 / 2 * n - 45 / 4
  · -- the bearing is exactly a sector boundary: both operations are exact
    obtain ⟨N, hN⟩ : ∃ N : ℕ, (N : ℤ) = n := ⟨n.toNat, Int.toNat_of_nonneg hn0⟩
    have hNq : (N : ℚ) = (n : ℚ) := by exact_mod_cast congrArg (fun z : ℤ => (z : ℚ)) hN
    have hNle : (N : ℚ) ≤ 2 ^ 40 := by
      rw [hNq]
      nlinarith
    have hNlt : N ≤ 2 ^ 40 := by exact_mod_cast hNle
    have hs : b + 45 / 4 = ((45 * N : ℕ) : ℚ) * 2 ^ (-1 : ℤ) := by
      rw [hA]
      push_cast
      rw [hNq]
      norm_num
      ring
    have h45 : 45 * N < 2 ^ 53 := by
      calc 45 * N ≤ 45 * 2 ^ 40 := Nat.mul_le_mul_left 45 hNlt
        _ < 2 ^ 53 := by norm_num
    have hN53 : N < 2 ^ 53 := by omega
    have hq : ((45 * N : ℕ) : ℚ) * 2 ^ (-1 : ℤ) / (45 / 2) = (N : ℚ) * 2 ^ (0 : ℤ) := by
      push_cast
      norm_num
      ring
    rw [hs, roundF64_dyadic _ _ h45, hq, roundF64_dyadic _ _ hN53]
    rw [zpow_zero, mul_one, hNq, goInt_of_nonneg hnq]
    exact Int.floor_intCast n
  · -- the bearing keeps its distance from the boundaries below and above
    have hlow : S / 2 ^ 50 ≤ b + 45 / 4 - (n : ℚ) * (45 / 2) := by
      rcases hgap n with h | h
      · exact absurd h hA
      · have habs : |b - (45 / 2 * (n : ℚ) - 45 / 4)| = b + 45 / 4 - (n : ℚ) * (45 / 2) := by
          rw [abs_of_nonneg (by linarith)]
          ring
        rwa [habs] at h
    have hhigh : S / 2 ^ 50 ≤ ((n : ℚ) + 1) * (45 / 2) - (b + 45 / 4) := by
      rcases hgap (n + 1) with h | h
      · exfalso
        push_cast at h
        linarith
      · have habs : |b - (45 / 2 * (((n + 1 : ℤ) : ℚ)) - 45 / 4)| =
            ((n : ℚ) + 1) * (45 / 2) - (b + 45 / 4) := by
          push_cast
          rw [abs_of_nonpos (by linarith)]
          ring
        rwa [habs] at h
    have hspos : (0 : ℚ) < b + 45 / 4 := by
      rcases lt_or_eq_of_le hs0 with h | h
      · exact h
      · exfalso
        apply hA
        have hn0' : (n : ℚ) = 0 := by nlinarith
        rw [hn0']
        linarith
    have hSpos : (0 : ℚ) < S := lt_of_lt_of_le hspos hS
    obtain ⟨herr1, -⟩ := roundF64_error (b + 45 / 4) hspos
    rw [abs_le] at herr1
    have hg : (0 : ℚ) < S / 2 ^ 50 := by positivity
    have hs' : (0 : ℚ) < roundF64 (b + 45 / 4) := by
      have : (b + 45 / 4) / 2 ^ 53 ≤ S / 2 ^ 53 := by
        apply div_le_div_of_nonneg_right hS (by positivity)
      have : S / 2 ^ 53 = S / 2 ^ 50 / 8 := by ring
      nlinarith
    have hqpos : (0 : ℚ) < roundF64 (b + 45 / 4) / (45 / 2) := by positivity
    obtain ⟨herr2, -⟩ := roundF64_error (roundF64 (b + 45 / 4) / (45 / 2)) hqpos
    rw [abs_le] at herr2
    have hbound : (n : ℚ) ≤ roundF64 (roundF64 (b + 45 / 4) / (45 / 2)) ∧
        roundF64 (roundF64 (b + 45 / 4) / (45 / 2)) < (n : ℚ) + 1 := by
      have h1 : (b + 45 / 4) / 2 ^ 53 ≤ S / 2 ^ 53 := by
        apply div_le_div_of_nonneg_right hS (by positivity)
      have h2 : S / 2 ^ 53 = S / 2 ^ 50 / 8 := by ring
      have h3 : roundF64 (b + 45 / 4) / (45 / 2) * (45 / 2) = roundF64 (b + 45 / 4) := by
        field_simp
      have h4 : S = S / 2 ^ 50 * 2 ^ 50 := by field_simp
      generalize roundF64 (roundF64 (b + 45 / 4) / (45 / 2)) = q' at herr2 ⊢
      generalize roundF64 (b + 45 / 4) / (45 / 2) = q at herr2 h3 hqpos ⊢
      generalize roundF64 (b + 45 / 4) = s' at herr1 h3 hs' ⊢
      generalize S / 2 ^ 50 = g at hlow hhigh hg h2 h4 ⊢
      constructor <;> norm_num at * <;> linarith
    have hq'0 : (0 : ℚ) ≤ roundF64 (roundF64 (b + 45 / 4) / (45 / 2)) := le_trans hnq hbound.1
    rw [goInt_of_nonneg hq'0, Int.floor_eq_iff]
    exact hbound


/-- The rounding of a value whose integer part is known. -/
theorem roundHalfEven_eq (q : ℚ) (f : ℕ) (h1 : (f : ℚ) ≤ q) (h2 : q < (f : ℚ) + 1) :
    roundHalfEven q =
      if q - f < 1 / 2 then f else if 1 / 2 < q - f then f + 1
      else if f % 2 = 0 then f else f + 1 := by
  have hfl : ⌊q⌋ = (f : ℤ) := by
    rw [Int.floor_eq_iff]
    exact ⟨by exact_mod_cast h1, by exact_mod_cast h2⟩
  unfold roundHalfEven
  simp only [hfl, Int.toNat_ofNat]

/-- Rounding to binary64 commutes with negation. -/
theorem roundF64_neg (x : ℚ) : roundF64 (-x) = -roundF64 x := by
  unfold roundF64
  by_cases h0 : x = 0
  · simp [h0]
  · have h0' : -x ≠ 0 := neg_ne_zero.mpr h0
    simp only [h0, h0', if_false, abs_neg]
    rcases lt_or_gt_of_ne h0 with h | h
    · have : ¬ (-x < 0) := by linarith
      simp only [h, this, if_true, if_false]
      ring
    · have h1 : -x < 0 := by linarith
      have h2 : ¬ (x < 0) := by linarith
      simp only [h1, h2, if_true, if_false]
      ring

/-- The value of `roundF64` at a positive argument with known exponent. -/
theorem roundF64_pos_eq (x : ℚ) (e : ℤ) (h1 : (2 : ℚ) ^ e ≤ x) (h2 : x < 2 ^ (e + 1)) :
    roundF64 x = (roundHalfEven (x / 2 ^ (e - 52)) : ℚ) * 2 ^ (e - 52) := by
  have hx : 0 < x := lt_of_lt_of_le (by positivity) h1
  unfold roundF64
  simp only [ne_of_gt hx, if_false, abs_of_pos hx, not_lt.mpr (le_of_lt hx), one_mul,
    log2_eq x e h1 h2]

/-- The sum of the binary64 value just below 11.25 and 11.25 is a tie and
rounds up to 22.5. -/
theorem roundF64_sum_below_11_25 : roundF64 (45 / 4 - 1 / 2 ^ 49 + 11.25) = 45 / 2 := by
  have hx : (45 / 4 - 1 / 2 ^ 49 + 11.25 : ℚ) = 45 / 2 - 1 / 2 ^ 49 := by norm_num
  rw [hx, roundF64_pos_eq _ 4 (by norm_num) (by norm_num)]
  have hdiv : (45 / 2 - 1 / 2 ^ 49 : ℚ) / 2 ^ ((4 : ℤ) - 52) =
      ((6333186975989759 : ℕ) : ℚ) + 1 / 2 := by
    rw [show ((4 : ℤ) - 52) = -(48 : ℕ) by norm_num, zpow_neg, zpow_natCast]
    norm_num
  rw [hdiv, roundHalfEven_eq _ 6333186975989759 (by norm_num) (by norm_num)]
  rw [show ((4 : ℤ) - 52) = -(48 : ℕ) by norm_num, zpow_neg, zpow_natCast]
  norm_num


/-- Away from the sector boundaries, and on them, the binary64 evaluation
gives the label of the exact evaluation. -/
theorem getWindDirectionF64_eq_exact (b S : ℚ) (hb : -45 / 4 ≤ b) (hS : b + 45 / 4 ≤ S)
    (hS2 : S ≤ 2 ^ 40)
    (hgap : ∀ k : ℤ, b = 45 / 2 * k - 45 / 4 ∨ S / 2 ^ 50 ≤ |b - (45 / 2 * k - 45 / 4)|) :
    getWindDirectionF64 b = getWindDirection b := by
  have hq0 : (0 : ℚ) ≤ (b + 45 / 4) / (45 / 2) := div_nonneg (by linarith) (by norm_num)
  rw [getWindDirection_of_ge hb]
  unfold getWindDirectionF64
  simp only []
  rw [windIndexF64_eq b S hb hS hS2 hgap,
    Int.tmod_eq_emod (Int.floor_nonneg.mpr hq0) (by decide)]

/-- A bearing that is a sector boundary, or keeps the distance `g` from the
two boundaries around it, is a boundary or keeps that distance from every
boundary. -/
theorem boundary_or_far (b g : ℚ) (n : ℤ) (hg : g ≤ 45 / 2)
    (h : b = 45 / 2 * n - 45 / 4 ∨
      (45 / 2 * n - 45 / 4 + g ≤ b ∧ b + g ≤ 45 / 2 * (n + 1) - 45 / 4)) :
    ∀ k : ℤ, b = 45 / 2 * k - 45 / 4 ∨ g ≤ |b - (45 / 2 * k - 45 / 4)| := by
  intro k
  rcases h with h | ⟨h1, h2⟩
  · by_cases hk : k = n
    · left; rw [hk]; exact h
    · right
      rw [h]
      rcases lt_or_gt_of_ne hk with hlt | hgt
      · have : (k : ℚ) + 1 ≤ (n : ℚ) := by exact_mod_cast hlt
        rw [abs_of_nonneg (by linarith)]
        linarith
      · have : (n : ℚ) + 1 ≤ (k : ℚ) := by exact_mod_cast hgt
        rw [abs_of_nonpos (by linarith)]
        linarith
  · right
    rcases lt_or_le g 0 with hneg | hg0
    · exact le_trans (le_of_lt hneg) (abs_nonneg _)
    rcases le_or_lt k n with hle | hgt
    · have : (k : ℚ) ≤ (n : ℚ) := by exact_mod_cast hle
      rw [abs_of_nonneg (by linarith)]
      linarith
    · have : (n : ℚ) + 1 ≤ (k : ℚ) := by exact_mod_cast hgt
      rw [abs_of_nonpos (by linarith)]
      linarith

/-- The binary64 label of a bearing up to 2^20 that is the lower boundary of
the sector `n`, or lies in it at least 2^-29 away from its two boundaries. -/
theorem getWindDirectionF64_of_sector (b : ℚ) (n : ℤ) (hn : 0 ≤ n) (hb : b ≤ 2 ^ 20)
    (h : b = 45 / 2 * n - 45 / 4 ∨
      (45 / 2 * n - 45 / 4 + 1 / 2 ^ 29 ≤ b ∧ b + 1 / 2 ^ 29 ≤ 45 / 2 * (n + 1) - 45 / 4)) :
    getWindDirectionF64 b = goIndex directions (n % 16) := by
  have hnq : (0 : ℚ) ≤ (n : ℚ) := by exact_mod_cast hn
  have hb0 : -45 / 4 ≤ b := by
    rcases h with h | ⟨h1, -⟩
    · rw [h]; linarith
    · have : (0 : ℚ) < 1 / 2 ^ 29 := by positivity
      linarith
  have hgap := boundary_or_far b (1 / 2 ^ 29) n (by norm_num) h
  rw [getWindDirectionF64_eq_exact b (2 ^ 20 + 45 / 4) hb0 (by linarith) (by norm_num)
    (fun k => (hgap k).imp id (fun hk => le_trans (by norm_num) hk))]
  apply getWindDirection_of_sector n hn
  · rcases h with h | ⟨h1, -⟩
    · rw [h]; linarith
    · have : (0 : ℚ) < 1 / 2 ^ 29 := by positivity
      linarith
  · rcases h with h | ⟨-, h2⟩
    · rw [h]; linarith
    · have : (0 : ℚ) < 1 / 2 ^ 29 := by positivity
      linarith

/-- The binary64 index and label at an argument whose rounded quotient is a
known natural number. -/
theorem getWindDirectionF64_of_quotient (b : ℚ) (n : ℕ)
    (h : roundF64 (roundF64 (b + 11.25) / 22.5) = (n : ℚ)) :
    windIndexF64 b = n ∧ getWindDirectionF64 b = goIndex directions ((n : ℤ) % 16) := by
  have hidx : windIndexF64 b = n := by
    unfold windIndexF64
    rw [h, goInt_of_nonneg (by positivity)]
    exact Int.floor_natCast n
  refine ⟨hidx, ?_⟩
  unfold getWindDirectionF64
  simp only []
  rw [hidx, Int.tmod_eq_emod (by positivity) (by decide)]

/-- The binary64 value just below 11.25 is labelled NNE. -/
theorem getWindDirectionF64_below_11_25 :
    roundF64 (45 / 4 - 1 / 2 ^ 49) = 45 / 4 - 1 / 2 ^ 49 ∧
    getWindDirectionF64 (45 / 4 - 1 / 2 ^ 49) = some "NNE" := by
  constructor
  · have h : (45 / 4 - 1 / 2 ^ 49 : ℚ) = ((6333186975989759 : ℕ) : ℚ) * 2 ^ (-49 : ℤ) := by
      rw [show (-49 : ℤ) = -(49 : ℕ) by norm_num, zpow_neg, zpow_natCast]
      norm_num
    rw [h]
    exact roundF64_dyadic _ _ (by norm_num)
  · have hq : roundF64 (roundF64 (45 / 4 - 1 / 2 ^ 49 + 11.25) / 22.5) = ((1 : ℕ) : ℚ) := by
      rw [roundF64_sum_below_11_25]
      have h1 : (45 / 2 : ℚ) / 22.5 = ((1 : ℕ) : ℚ) * 2 ^ (0 : ℤ) := by norm_num
      rw [h1, roundF64_dyadic _ _ (by norm_num)]
      norm_num
    rw [(getWindDirectionF64_of_quotient _ 1 hq).2]
    rfl

/-- In binary64 arithmetic the bearing -20 is labelled N. -/
theorem getWindDirectionF64_neg20 : getWindDirectionF64 (-20) = some "N" := by
  have hs : roundF64 (-20 + 11.25) = -(35 / 4) := by
    have h : (-20 + 11.25 : ℚ) = -(((35 : ℕ) : ℚ) * 2 ^ (-2 : ℤ)) := by
      rw [show (-2 : ℤ) = -(2 : ℕ) by norm_num, zpow_neg, zpow_natCast]
      norm_num
    rw [h, roundF64_neg, roundF64_dyadic _ _ (by norm_num)]
    rw [show (-2 : ℤ) = -(2 : ℕ) by norm_num, zpow_neg, zpow_natCast]
    norm_num
  have hq : (-(35 / 4) : ℚ) / 22.5 = -(7 / 18) := by norm_num
  obtain ⟨herr, hnn⟩ := roundF64_error (7 / 18) (by norm_num)
  rw [abs_le] at herr
  have hidx : windIndexF64 (-20) = 0 := by
    unfold windIndexF64
    rw [hs, hq, roundF64_neg]
    have hpos : (0 : ℚ) < roundF64 (7 / 18) := by
      norm_num at herr
      linarith
    rw [goInt_of_neg (by linarith), Int.ceil_eq_iff]
    constructor
    · norm_num at herr ⊢
      linarith
    · norm_num
      linarith
  unfold getWindDirectionF64
  simp only []
  rw [hidx]
  rfl

/-- The binary64 value just below 506.25 is labelled SSE: its sum with 11.25
is a tie and rounds up to 517.5, whose quotient by 22.5 is 23. -/
theorem getWindDirectionF64_below_506_25 :
    roundF64 (2025 / 4 - 1 / 2 ^ 44) = 2025 / 4 - 1 / 2 ^ 44 ∧
    getWindDirectionF64 (2025 / 4 - 1 / 2 ^ 44) = some "SSE" := by
  constructor
  · have h : (2025 / 4 - 1 / 2 ^ 44 : ℚ) = ((8906044184985599 : ℕ) : ℚ) * 2 ^ (-44 : ℤ) := by
      rw [show (-44 : ℤ) = -(44 : ℕ) by norm_num, zpow_neg, zpow_natCast]
      norm_num
    rw [h]
    exact roundF64_dyadic _ _ (by norm_num)
  · have hsum : roundF64 (2025 / 4 - 1 / 2 ^ 44 + 11.25) = 1035 / 2 := by
      have hx : (2025 / 4 - 1 / 2 ^ 44 + 11.25 : ℚ) = 1035 / 2 - 1 / 2 ^ 44 := by norm_num
      rw [hx, roundF64_pos_eq _ 9 (by norm_num) (by norm_num)]
      have hdiv : (1035 / 2 - 1 / 2 ^ 44 : ℚ) / 2 ^ ((9 : ℤ) - 52) =
          ((4551978138992639 : ℕ) : ℚ) + 1 / 2 := by
        rw [show ((9 : ℤ) - 52) = -(43 : ℕ) by norm_num, zpow_neg, zpow_natCast]
        norm_num
      rw [hdiv, roundHalfEven_eq _ 4551978138992639 (by norm_num) (by norm_num)]
      rw [show ((9 : ℤ) - 52) = -(43 : ℕ) by norm_num, zpow_neg, zpow_natCast]
      norm_num
    have hq : roundF64 (roundF64 (2025 / 4 - 1 / 2 ^ 44 + 11.25) / 22.5) = ((23 : ℕ) : ℚ) := by
      rw [hsum]
      have h1 : (1035 / 2 : ℚ) / 22.5 = ((23 : ℕ) : ℚ) * 2 ^ (0 : ℤ) := by norm_num
      rw [h1, roundF64_dyadic _ _ (by norm_num)]
      norm_num
    rw [(getWindDirectionF64_of_quotient _ 23 hq).2]
    rfl

/-- The modulo by 360 of the binary64 value just below 506.25 is the binary64
value just below 146.25, which is labelled SE. -/
theorem getWindDirectionF64_below_146_25 :
    mod360 (2025 / 4 - 1 / 2 ^ 44) = 585 / 4 - 1 / 2 ^ 44 ∧
    getWindDirectionF64 (585 / 4 - 1 / 2 ^ 44) = some "SE" := by
  constructor
  · unfold mod360
    have : ⌊(2025 / 4 - 1 / 2 ^ 44 : ℚ) / 360⌋ = 1 := by
      rw [Int.floor_eq_iff]
      norm_num
    rw [this]
    norm_num
  · have hsum : roundF64 (585 / 4 - 1 / 2 ^ 44 + 11.25) = 315 / 2 - 1 / 2 ^ 44 := by
      have hx : (585 / 4 - 1 / 2 ^ 44 + 11.25 : ℚ) =
          ((2770769301995519 : ℕ) : ℚ) * 2 ^ (-44 : ℤ) := by
        rw [show (-44 : ℤ) = -(44 : ℕ) by norm_num, zpow_neg, zpow_natCast]
        norm_num
      rw [hx, roundF64_dyadic _ _ (by norm_num)]
      rw [show (-44 : ℤ) = -(44 : ℕ) by norm_num, zpow_neg, zpow_natCast]
      norm_num
    obtain ⟨herr, -⟩ := roundF64_error ((315 / 2 - 1 / 2 ^ 44) / 22.5) (by norm_num)
    rw [abs_le] at herr
    have hidx : windIndexF64 (585 / 4 - 1 / 2 ^ 44) = 6 := by
      unfold windIndexF64
      rw [hsum]
      have h6 : (6 : ℚ) ≤ roundF64 ((315 / 2 - 1 / 2 ^ 44) / 22.5) := by
        norm_num at herr ⊢
        linarith
      have h7 : roundF64 ((315 / 2 - 1 / 2 ^ 44) / 22.5) < 7 := by
        norm_num at herr ⊢
        linarith
      rw [goInt_of_nonneg (by linarith), Int.floor_eq_iff]
      exact ⟨by exact_mod_cast h6, by push_cast; linarith⟩
    unfold getWindDirectionF64
    simp only []
    rw [hidx]
    rfl

/-- The bearing 10^16 is labelled WNW, its modulo 280 is labelled W. -/
theorem getWindDirectionF64_1e16 :
    roundF64 (10 ^ 16) = 10 ^ 16 ∧
    getWindDirectionF64 (10 ^ 16) = some "WNW" ∧ mod360 (10 ^ 16) = 280 ∧
    getWindDirectionF64 280 = some "W" := by
  refine ⟨?_, ?_, ?_, ?_⟩
  · have h : (10 ^ 16 : ℚ) = ((152587890625 : ℕ) : ℚ) * 2 ^ (16 : ℤ) := by
      rw [show (16 : ℤ) = ((16 : ℕ) : ℤ) by norm_num, zpow_natCast]
      norm_num
    rw [h]
    exact roundF64_dyadic _ _ (by norm_num)
  · have hsum : roundF64 (10 ^ 16 + 11.25) = 10000000000000012 := by
      rw [roundF64_pos_eq _ 53 (by norm_num) (by norm_num)]
      have hdiv : (10 ^ 16 + 11.25 : ℚ) / 2 ^ ((53 : ℤ) - 52) =
          ((5000000000000005 : ℕ) : ℚ) + 5 / 8 := by
        norm_num
      rw [hdiv, roundHalfEven_eq _ 5000000000000005 (by norm_num) (by norm_num)]
      norm_num
    have hq : roundF64 (roundF64 (10 ^ 16 + 11.25) / 22.5) = ((444444444444445 : ℕ) : ℚ) := by
      rw [hsum, roundF64_pos_eq _ 48 (by norm_num) (by norm_num)]
      have hdiv : (10000000000000012 / 22.5 : ℚ) / 2 ^ ((48 : ℤ) - 52) =
          ((7111111111111119 : ℕ) : ℚ) + 29 / 45 := by
        rw [show ((48 : ℤ) - 52) = -(4 : ℕ) by norm_num, zpow_neg, zpow_natCast]
        norm_num
      rw [hdiv, roundHalfEven_eq _ 7111111111111119 (by norm_num) (by norm_num)]
      rw [show ((48 : ℤ) - 52) = -(4 : ℕ) by norm_num, zpow_neg, zpow_natCast]
      norm_num
    rw [(getWindDirectionF64_of_quotient _ 444444444444445 hq).2]
    rfl
  · unfold mod360
    have : ⌊(10 ^ 16 : ℚ) / 360⌋ = 27777777777777 := by
      rw [Int.floor_eq_iff]
      norm_num
    rw [this]
    norm_num
  · rw [getWindDirectionF64_of_sector 280 12 (by decide) (by norm_num)
      (Or.inr ⟨by norm_num, by norm_num⟩)]
    rfl

/-- The bearings -45, 270 and 348.75 keep in binary64 arithmetic the outcome
they have in exact arithmetic: every operation on them is exact. -/
theorem getWindDirectionF64_examples :
    getWindDirectionF64 (-45) = none ∧ getWindDirectionF64 270 = some "W" ∧
    getWindDirectionF64 348.75 = some "N" := by
  refine ⟨?_, ?_, ?_⟩
  · have hs : roundF64 (-45 + 11.25) = -(135 / 4) := by
      have h : (-45 + 11.25 : ℚ) = -(((135 : ℕ) : ℚ) * 2 ^ (-2 : ℤ)) := by
        rw [show (-2 : ℤ) = -(2 : ℕ) by norm_num, zpow_neg, zpow_natCast]
        norm_num
      rw [h, roundF64_neg, roundF64_dyadic _ _ (by norm_num)]
      rw [show (-2 : ℤ) = -(2 : ℕ) by norm_num, zpow_neg, zpow_natCast]
      norm_num
    have hq : roundF64 (-(135 / 4) / 22.5) = -(3 / 2) := by
      have h : (-(135 / 4) / 22.5 : ℚ) = -(((3 : ℕ) : ℚ) * 2 ^ (-1 : ℤ)) := by
        rw [show (-1 : ℤ) = -(1 : ℕ) by norm_num, zpow_neg, zpow_natCast]
        norm_num
      rw [h, roundF64_neg, roundF64_dyadic _ _ (by norm_num)]
      rw [show (-1 : ℤ) = -(1 : ℕ) by norm_num, zpow_neg, zpow_natCast]
      norm_num
    have hidx : windIndexF64 (-45) = -1 := by
      unfold windIndexF64
      rw [hs, hq, goInt_of_neg (by norm_num), Int.ceil_eq_iff]
      norm_num
    unfold getWindDirectionF64
    simp only []
    rw [hidx]
    rfl
  · rw [getWindDirectionF64_of_sector 270 12 (by decide) (by norm_num)
      (Or.inr ⟨by norm_num, by norm_num⟩)]
    rfl
  · rw [getWindDirectionF64_of_sector 348.75 16 (by decide) (by norm_num)
      (Or.inl (by norm_num))]
    rfl

/-- C3 (counterexample): the binary64 value just below 11.25, that is
`11.25 - 2^-49` (printed 11.249999999999998), lies in [0, 360]; the index
`trunc ((b + 11.25) / 22.5) mod 16` is 0, the label N, but the
code's sum rounds to 22.5, its index is 1 and it returns NNE. -/
theorem getWindDirectionF64_rounds_up :
    roundF64 (45 / 4 - 1 / 2 ^ 49) = 45 / 4 - 1 / 2 ^ 49 ∧
    (0 : ℚ) ≤ 45 / 4 - 1 / 2 ^ 49 ∧ (45 / 4 - 1 / 2 ^ 49 : ℚ) ≤ 360 ∧
    (⌊((45 / 4 - 1 / 2 ^ 49 : ℚ) + 11.25) / 22.5⌋ % 16).toNat = 0 ∧
    directions.get? 0 = some "N" ∧
    getWindDirectionF64 (45 / 4 - 1 / 2 ^ 49) = some "NNE" ∧
    getWindDirectionF64 (45 / 4 - 1 / 2 ^ 49) ≠
      directions.get? (⌊((45 / 4 - 1 / 2 ^ 49 : ℚ) + 11.25) / 22.5⌋ % 16).toNat := by
  have hfl : ⌊((45 / 4 - 1 / 2 ^ 49 : ℚ) + 11.25) / 22.5⌋ = 0 := by
    rw [Int.floor_eq_iff]
    norm_num
  obtain ⟨hfloat, hlabel⟩ := getWindDirectionF64_below_11_25
  refine ⟨hfloat, by norm_num, by norm_num, by rw [hfl]; rfl, rfl, hlabel, ?_⟩
  rw [hfl, hlabel]
  decide

/-- C3 (amended): in binary64 arithmetic, for every bearing b with
0 ≤ b ≤ 360 that is a sector boundary `22.5 k - 11.25` or is at least `2^-41`
away from every sector boundary, the compass label is the element of the
16-label list at the index `trunc ((b + 11.25) / 22.5) mod 16` (the truncation
is the floor here, the quotient being non-negative); in particular the
bearings 0 and 11.24 (its nearest binary64 value) give N, 11.25 gives NNE and
360 wraps to N. -/
theorem getWindDirectionF64_spec :
    (∀ b : ℚ, 0 ≤ b → b ≤ 360 →
      (∀ k : ℤ, b = 22.5 * k - 11.25 ∨ 1 / 2 ^ 41 ≤ |b - (22.5 * k - 11.25)|) →
      ∃ h : (⌊(b + 11.25) / 22.5⌋ % 16).toNat < directions.length,
        getWindDirectionF64 b =
          some (directions.get ⟨(⌊(b + 11.25) / 22.5⌋ % 16).toNat, h⟩)) ∧
    directions = ["N", "NNE", "NE", "ENE", "E", "ESE", "SE", "SSE",
      "S", "SSW", "SW", "WSW", "W", "WNW", "NW", "NNW"] ∧
    getWindDirectionF64 0 = some "N" ∧
    getWindDirectionF64 (roundF64 11.24) = some "N" ∧
    getWindDirectionF64 11.25 = some "NNE" ∧
    getWindDirectionF64 360 = some "N" := by
  refine ⟨?_, rfl, ?_, ?_, ?_, ?_⟩
  · intro b hb0 hb360 hgap
    have e1 : (11.25 : ℚ) = 45 / 4 := by norm_num
    have e2 : (22.5 : ℚ) = 45 / 2 := by norm_num
    simp only [e1, e2] at hgap ⊢
    rw [getWindDirectionF64_eq_exact b (1485 / 4) (by linarith) (by linarith) (by norm_num)
      (fun k => (hgap k).imp id (fun hk => le_trans (by norm_num) hk)),
      getWindDirection_of_ge (by linarith)]
    exact goIndex_directions (Int.emod_nonneg _ (by decide)) (Int.emod_lt_of_pos _ (by decide))
  · rw [getWindDirectionF64_of_sector 0 0 (by decide) (by norm_num)
      (Or.inr ⟨by norm_num, by norm_num⟩)]
    rfl
  · obtain ⟨herr, -⟩ := roundF64_error 11.24 (by norm_num)
    rw [abs_le] at herr
    norm_num at herr
    rw [getWindDirectionF64_of_sector (roundF64 11.24) 0 (by decide) (by norm_num; linarith)
      (Or.inr ⟨by norm_num; linarith, by norm_num; linarith⟩)]
    rfl
  · rw [getWindDirectionF64_of_sector 11.25 1 (by decide) (by norm_num)
      (Or.inl (by norm_num))]
    rfl
  · rw [getWindDirectionF64_of_sector 360 16 (by decide) (by norm_num)
      (Or.inr ⟨by norm_num, by norm_num⟩)]
    rfl

/-- C3 (witness): the bearing 100 lies well inside the east sector. -/
theorem getWindDirectionF64_spec_witness :
    (0 : ℚ) ≤ 100 ∧ (100 : ℚ) ≤ 360 ∧
    (∀ k : ℤ, (100 : ℚ) = 22.5 * k - 11.25 ∨ 1 / 2 ^ 41 ≤ |(100 : ℚ) - (22.5 * k - 11.25)|) ∧
    ∃ h : (⌊((100 : ℚ) + 11.25) / 22.5⌋ % 16).toNat < directions.length,
      getWindDirectionF64 100 =
        some (directions.get ⟨(⌊((100 : ℚ) + 11.25) / 22.5⌋ % 16).toNat, h⟩) := by
  have hgap : ∀ k : ℤ, (100 : ℚ) = 22.5 * k - 11.25 ∨
      1 / 2 ^ 41 ≤ |(100 : ℚ) - (22.5 * k - 11.25)| := by
    intro k
    have h := boundary_or_far 100 (1 / 2 ^ 41) 4 (by norm_num)
      (Or.inr ⟨by norm_num, by norm_num⟩) k
    have e1 : (22.5 : ℚ) * k - 11.25 = 45 / 2 * k - 45 / 4 := by norm_num
    rw [e1]
    exact h
  exact ⟨by norm_num, by norm_num, hgap,
    getWindDirectionF64_spec.1 100 (by norm_num) (by norm_num) hgap⟩

/-- C5 (counterexample): three bearings whose label differs from the label of
their modulo by 360. The bearing -20 is labelled N (the truncation goes
towards zero) and 340 NNW; the binary64 value just below 506.25 is labelled
SSE (its sum with 11.25 rounds up to 517.5) and its modulo, just below
146.25, SE; the bearing 10^16 is labelled WNW and its modulo 280 W. -/
theorem getWindDirectionF64_mod360_fails :
    getWindDirectionF64 (-20) ≠ getWindDirectionF64 (mod360 (-20)) ∧
    (roundF64 (2025 / 4 - 1 / 2 ^ 44) = 2025 / 4 - 1 / 2 ^ 44 ∧
      getWindDirectionF64 (2025 / 4 - 1 / 2 ^ 44) ≠
        getWindDirectionF64 (mod360 (2025 / 4 - 1 / 2 ^ 44))) ∧
    (roundF64 (10 ^ 16) = 10 ^ 16 ∧
      getWindDirectionF64 (10 ^ 16) ≠ getWindDirectionF64 (mod360 (10 ^ 16))) ∧
    getWindDirectionF64 (-20) = some "N" ∧
    getWindDirectionF64 (mod360 (-20)) = some "NNW" ∧
    getWindDirectionF64 (2025 / 4 - 1 / 2 ^ 44) = some "SSE" ∧
    getWindDirectionF64 (mod360 (2025 / 4 - 1 / 2 ^ 44)) = some "SE" ∧
    getWindDirectionF64 (10 ^ 16) = some "WNW" ∧
    getWindDirectionF64 (mod360 (10 ^ 16)) = some "W" := by
  have h340 : getWindDirectionF64 (mod360 (-20)) = some "NNW" := by
    rw [mod360_neg20, getWindDirectionF64_of_sector 340 15 (by decide) (by norm_num)
      (Or.inr ⟨by norm_num, by norm_num⟩)]
    rfl
  obtain ⟨hf1, hb1⟩ := getWindDirectionF64_below_506_25
  obtain ⟨hm1, hb1m⟩ := getWindDirectionF64_below_146_25
  obtain ⟨hf2, hb2, hm2, hb2m⟩ := getWindDirectionF64_1e16
  have hb1m' : getWindDirectionF64 (mod360 (2025 / 4 - 1 / 2 ^ 44)) = some "SE" := by
    rw [hm1]
    exact hb1m
  have hb2m' : getWindDirectionF64 (mod360 (10 ^ 16)) = some "W" := by
    rw [hm2]
    exact hb2m
  refine ⟨?_, ⟨hf1, ?_⟩, ⟨hf2, ?_⟩, getWindDirectionF64_neg20, h340, hb1, hb1m', hb2, hb2m'⟩
  · rw [getWindDirectionF64_neg20, h340]
    decide
  · rw [hb1, hb1m']
    decide
  · rw [hb2, hb2m']
    decide

/-- C5 (amended): in binary64 arithmetic, for every bearing b with
-11.25 ≤ b ≤ 2^20 that is a sector boundary `22.5 k - 11.25` or is at least
`2^-29` away from every sector boundary, the compass label of b is the
compass label of `b mod 360` (the mathematical modulo in `[0, 360)`). -/
theorem getWindDirectionF64_mod360 (b : ℚ) (hb : -11.25 ≤ b) (hB : b ≤ 2 ^ 20)
    (hgap : ∀ k : ℤ, b = 22.5 * k - 11.25 ∨ 1 / 2 ^ 29 ≤ |b - (22.5 * k - 11.25)|) :
    getWindDirectionF64 b = getWindDirectionF64 (mod360 b) := by
  have e1 : (11.25 : ℚ) = 45 / 4 := by norm_num
  have e2 : (22.5 : ℚ) = 45 / 2 := by norm_num
  simp only [e1, e2] at hgap hb
  have hb' : -45 / 4 ≤ b := by linarith
  obtain ⟨hm0, hm360⟩ := mod360_range b
  have hgapm : ∀ k : ℤ, mod360 b = 45 / 2 * k - 45 / 4 ∨
      1 / 2 ^ 29 ≤ |mod360 b - (45 / 2 * k - 45 / 4)| := by
    intro k
    have hshift : mod360 b - (45 / 2 * (k : ℚ) - 45 / 4) =
        b - (45 / 2 * ((k + 16 * ⌊b / 360⌋ : ℤ) : ℚ) - 45 / 4) := by
      unfold mod360
      push_cast
      ring
    rcases hgap (k + 16 * ⌊b / 360⌋) with h | h
    · left
      have : mod360 b - (45 / 2 * (k : ℚ) - 45 / 4) = 0 := by
        rw [hshift]
        linarith
      linarith
    · right
      rw [hshift]
      exact h
  rw [getWindDirectionF64_eq_exact b (2 ^ 20 + 45 / 4) hb' (by linarith) (by norm_num)
      (fun k => (hgap k).imp id (fun hk => le_trans (by norm_num) hk)),
    getWindDirectionF64_eq_exact (mod360 b) (2 ^ 20 + 45 / 4) (by linarith) (by linarith)
      (by norm_num) (fun k => (hgapm k).imp id (fun hk => le_trans (by norm_num) hk))]
  exact getWindDirection_exact_mod360 b hb'

/-- C5 (witness): the bearing 700 and its modulo 340 share the label. -/
theorem getWindDirectionF64_mod360_witness :
    (-11.25 : ℚ) ≤ 700 ∧ (700 : ℚ) ≤ 2 ^ 20 ∧
    (∀ k : ℤ, (700 : ℚ) = 22.5 * k - 11.25 ∨ 1 / 2 ^ 29 ≤ |(700 : ℚ) - (22.5 * k - 11.25)|) ∧
    getWindDirectionF64 700 = getWindDirectionF64 (mod360 700) := by
  have hgap : ∀ k : ℤ, (700 : ℚ) = 22.5 * k - 11.25 ∨
      1 / 2 ^ 29 ≤ |(700 : ℚ) - (22.5 * k - 11.25)| := by
    intro k
    have h := boundary_or_far 700 (1 / 2 ^ 29) 31 (by norm_num)
      (Or.inr ⟨by norm_num, by norm_num⟩) k
    have e1 : (22.5 : ℚ) * k - 11.25 = 45 / 2 * k - 45 / 4 := by norm_num
    rw [e1]
    exact h
  exact ⟨by norm_num, by norm_num, hgap,
    getWindDirectionF64_mod360 700 (by norm_num) (by norm_num) hgap⟩

end SMHI
